import Mathlib

/-!
Verification of the Workout Mapping & Export Core (WMEC).

This file shallowly embeds the parts of the repository that the claims
C1..C10 are about, and proves or refutes each claim.

Embedded source files:
* `backend/adapters/blocks_to_fit.py` - CRC-16, FIT file envelope,
  category remapping, and the step compiler `blocks_to_steps`.
* `backend/adapters/garmin_lookup.py` - `GarminExerciseLookup.normalize`.
* `backend/mapping/exercise_name_matcher.py` - `normalize_name`.
* `backend/adapters/blocks_to_hyrox_yaml.py` - `parse_exercise_name`,
  `clean_exercise_name`, `map_exercise_to_garmin`.
* `backend/core/user_mappings.py`, `backend/core/global_mappings.py` -
  user-mapping and popularity lookups (stores passed as parameters).
* `backend/core/workflow.py` - `extract_all_exercises_from_blocks`,
  `validate_workout_mapping`.

Conventions of the embedding:
* Python integers become `Nat`/`Int`; Python floats that only carry exact
  decimal fractions (confidences, parsed distances) become `ℚ`.
* Python `None`-able values become `Option`.
* Python runtime errors (TypeError / ValueError / NameError) are modelled
  with `Except PyErr`; code that cannot raise stays pure.
* Python dicts that are loaded from data files are passed as association
  lists or functions (the data files live outside `src/`).
* Strings are processed as `List Char`; Python `str.lower` / `isupper`
  etc. are modelled on ASCII (the repository's data is ASCII).
-/

namespace WMEC

/-- Python exception kinds that the embedded code can raise. -/
inductive PyErr
  | typeError
  | valueError
  | nameError
deriving DecidableEq, Repr

/-! ## Character and string primitives -/

/-- ASCII lowercase of one character, as Python `str.lower` acts on ASCII. -/
def lowChar (c : Char) : Char := c.toLower

/-- Lowercase a character list. -/
def lowerL (cs : List Char) : List Char := cs.map lowChar

/-- Python `str.strip` (leading whitespace removal half). -/
def trimLeadL (cs : List Char) : List Char := cs.dropWhile Char.isWhitespace

/-- Python `str.strip`: drop leading and trailing whitespace. -/
def trimL (cs : List Char) : List Char :=
  ((cs.dropWhile Char.isWhitespace).reverse.dropWhile Char.isWhitespace).reverse

/-- Python `str.rstrip('|')`: drop trailing pipe characters. -/
def rstripPipeL (cs : List Char) : List Char :=
  (cs.reverse.dropWhile (fun c => c = '|')).reverse

/-- Is `pat` a contiguous substring of `cs`? (Python `pat in cs`.) -/
def containsSub (pat : List Char) : List Char → Bool
  | [] => pat.isEmpty
  | c :: rest => pat.isPrefixOf (c :: rest) || containsSub pat rest

/-- Fueled worker for Python `str.replace`: replace every
non-overlapping, leftmost-first occurrence of the nonempty pattern `pat`
by `rep`.  The fuel only serves structural recursion; each step consumes
at least one character, so fuel `cs.length` never runs out. -/
def replAux (pat rep : List Char) : Nat → List Char → List Char
  | _, [] => []
  | 0, cs => cs
  | fuel + 1, c :: rest =>
    if pat ≠ [] ∧ pat.isPrefixOf (c :: rest) then
      rep ++ replAux pat rep fuel ((c :: rest).drop pat.length)
    else
      c :: replAux pat rep fuel rest

/-- Python `str.replace(pat, rep)` for a nonempty pattern. -/
def replL (pat rep cs : List Char) : List Char := replAux pat rep cs.length cs

/-- Worker for whitespace collapsing, with a flag telling whether the
previous character was whitespace (i.e. already emitted as one space). -/
def collapseAux (prevWs : Bool) : List Char → List Char
  | [] => []
  | c :: rest =>
    if c.isWhitespace then
      if prevWs then collapseAux true rest else ' ' :: collapseAux true rest
    else
      c :: collapseAux false rest

/-- Collapse every maximal whitespace run to a single space
(Python `re.sub(r'\s+', ' ', s)`). -/
def collapseWsL (cs : List Char) : List Char := collapseAux false cs

/-- Digit run at the front of a list. -/
def digitRun (cs : List Char) : List Char := cs.takeWhile Char.isDigit

/-- The first maximal digit run in the list (Python `re.search(r'(\d+)')`). -/
def findDigitRun : List Char → Option (List Char)
  | [] => none
  | c :: rest => if c.isDigit then some (digitRun (c :: rest)) else findDigitRun rest

/-- Numeric value of a digit list. -/
def natOfDigits (cs : List Char) : Nat :=
  cs.foldl (fun a c => a * 10 + (c.toNat - 48)) 0

/-- Python `int(s)` for base-10 string literals: optional surrounding
whitespace, optional sign, then at least one digit. `none` models the
`ValueError` raised otherwise. -/
def pyIntOfChars (cs : List Char) : Option Int :=
  let t := trimL cs
  match t with
  | '+' :: ds => if ds ≠ [] ∧ ds.all Char.isDigit then some (natOfDigits ds) else none
  | '-' :: ds => if ds ≠ [] ∧ ds.all Char.isDigit then some (-(natOfDigits ds : Int)) else none
  | ds => if ds ≠ [] ∧ ds.all Char.isDigit then some (natOfDigits ds) else none

/-- Python `float(s)` for a string made only of digits and dots, the shape
produced by a regex group `([\d.]+)`. Valid iff there is at most one dot
and at least one digit; `none` models the `ValueError`. -/
def pyFloatDigitsDots (cs : List Char) : Option ℚ :=
  if cs.count '.' > 1 then none
  else
    let intPart := cs.takeWhile (fun c => c ≠ '.')
    let fracPart := (cs.dropWhile (fun c => c ≠ '.')).drop 1
    if intPart = [] ∧ fracPart = [] then none
    else if cs.any (fun c => c.isDigit) = false then none
    else some ((natOfDigits intPart : ℚ) + (natOfDigits fracPart : ℚ) / ((10 : ℚ) ^ fracPart.length))

/-- Python `int(q)` on a nonnegative-or-negative rational: truncation
toward zero. -/
def pyTrunc (q : ℚ) : Int := if q ≥ 0 then ⌊q⌋ else -⌊-q⌋

/-- Worker for Python `str.split()`: `cur` is the reversed current word. -/
def splitWsAux (cur : List Char) : List Char → List (List Char)
  | [] => if cur = [] then [] else [cur.reverse]
  | c :: rest =>
    if c.isWhitespace then
      if cur = [] then splitWsAux [] rest else cur.reverse :: splitWsAux [] rest
    else
      splitWsAux (c :: cur) rest

/-- Python `str.split()` with no argument: split on whitespace runs,
dropping empty pieces. -/
def splitWsL (cs : List Char) : List (List Char) := splitWsAux [] cs

/-- Python `str.split('-')`: split at a separator character, keeping empty
pieces. -/
def splitCharL (sep : Char) (cs : List Char) : List (List Char) :=
  match cs with
  | [] => [[]]
  | c :: rest =>
    if c = sep then [] :: splitCharL sep rest
    else
      match splitCharL sep rest with
      | [] => [[c]]
      | p :: ps => (c :: p) :: ps

/-- Replace one character by another everywhere. -/
def replaceCharL (a b : Char) (cs : List Char) : List Char :=
  cs.map (fun c => if c = a then b else c)

/-- Python `str.capitalize()`: first character uppercased, rest lowercased. -/
def capitalizeL : List Char → List Char
  | [] => []
  | c :: rest => c.toUpper :: lowerL rest

/-- Python `' '.join(w.capitalize() for w in s.split())`. -/
def capWordsL (cs : List Char) : List Char :=
  List.intercalate [' '] ((splitWsL cs).map capitalizeL)

/-- Python `str.title()`: letters that follow a letter are lowercased,
letters that start a run are uppercased (ASCII). -/
def titleGo (prevAlpha : Bool) : List Char → List Char
  | [] => []
  | c :: rest =>
    if c.isAlpha then
      (if prevAlpha then c.toLower else c.toUpper) :: titleGo true rest
    else
      c :: titleGo false rest

/-- Python `str.title()`. -/
def titleL (cs : List Char) : List Char := titleGo false cs

/-! ## Regex-shaped string matchers

Each Python regex used by the repository is hand-translated to a
recognizer for exactly that pattern.  All inputs are single-line (the
repository feeds exercise names), so `.` / `.*$` reach the end of the
string. -/

/-- Does one of `';'`, `':'`, whitespace start here (`[;:\s]`)? -/
def isSetLabelSep (c : Char) : Bool := c = ';' || c = ':' || c.isWhitespace

/-- Matcher for `^[a-z]\d+[;:\s]+` (IGNORECASE): returns the remainder
after the set-label prefix, or `none` when the regex does not match. -/
def setLabelRem (cs : List Char) : Option (List Char) :=
  match cs with
  | [] => none
  | c :: rest =>
    if c.isAlpha then
      let ds := rest.takeWhile Char.isDigit
      if ds ≠ [] then
        let rest2 := rest.drop ds.length
        let seps := rest2.takeWhile isSetLabelSep
        if seps ≠ [] then some (rest2.drop seps.length) else none
      else none
    else none

/-- `re.sub(r'^[a-z]\d+[;:\s]+', '', name, IGNORECASE)`. -/
def stripSetLabelL (cs : List Char) : List Char := (setLabelRem cs).getD cs

/-- The fixed equipment tokens stripped by `GarminExerciseLookup.normalize`. -/
def equipToks : List (List Char) :=
  [String.data "db ", String.data "kb ", String.data "bb ", String.data "sb ",
   String.data "mb ", String.data "trx ", String.data "cable ", String.data "band "]

/-- The Python loop `for prefix in [...]: if name.startswith(prefix):
name = name[len(prefix):]`, checking each token once in order on the
current value. -/
def stripEquipGo : List (List Char) → List Char → List Char
  | [], cs => cs
  | p :: ps, cs => stripEquipGo ps (if p.isPrefixOf cs then cs.drop p.length else cs)

/-- Does `x\s*\d` match at the head (the distinguishing core of the rep
marker `\s*x\s*\d+.*$`)? -/
def xRepsAt (cs : List Char) : Bool :=
  match cs with
  | [] => false
  | c :: rest =>
    (c = 'x' || c = 'X') &&
      (match (rest.dropWhile Char.isWhitespace).head? with
       | some d => d.isDigit
       | none => false)

/-- Index of the leftmost `x\s*\d+` occurrence, if any. -/
def findXIdx : List Char → Option Nat
  | [] => none
  | c :: rest => if xRepsAt (c :: rest) then some 0 else (findXIdx rest).map (· + 1)

/-- Drop trailing whitespace of a list. -/
def dropTrailWs (cs : List Char) : List Char :=
  (cs.reverse.dropWhile Char.isWhitespace).reverse

/-- `re.sub(r'\s*x\s*\d+.*$', '', name, IGNORECASE)`: cut at the leftmost
rep marker, including the whitespace run right before it. -/
def cutXRepsL (cs : List Char) : List Char :=
  match findXIdx cs with
  | none => cs
  | some i => dropTrailWs (cs.take i)

/-- Case-insensitive literal prefix test. -/
def startsWithCI (pat : List Char) (cs : List Char) : Bool :=
  pat.isPrefixOf (lowerL (cs.take pat.length))

/-- Does `\s+(each|per)\s+(side|arm|leg)` match at the head? -/
def eachPerAt (cs : List Char) : Bool :=
  let w1 := cs.takeWhile Char.isWhitespace
  if w1 = [] then false
  else
    let r1 := cs.drop w1.length
    let afterWord : Option (List Char) :=
      if startsWithCI (String.data "each") r1 then some (r1.drop 4)
      else if startsWithCI (String.data "per") r1 then some (r1.drop 3)
      else none
    match afterWord with
    | none => false
    | some r2 =>
      let w2 := r2.takeWhile Char.isWhitespace
      if w2 = [] then false
      else
        let r3 := r2.drop w2.length
        startsWithCI (String.data "side") r3 || startsWithCI (String.data "arm") r3 ||
          startsWithCI (String.data "leg") r3

/-- Index of the leftmost `\s+(each|per)\s+(side|arm|leg)` occurrence. -/
def findEachPerIdx : List Char → Option Nat
  | [] => none
  | c :: rest => if eachPerAt (c :: rest) then some 0 else (findEachPerIdx rest).map (· + 1)

/-- `re.sub(r'\s+(each|per)\s+(side|arm|leg).*$', '', name, IGNORECASE)`. -/
def cutEachPerL (cs : List Char) : List Char :=
  match findEachPerIdx cs with
  | none => cs
  | some i => cs.take i

/-- Is the character a digit or a dot (`[\d.]`)? -/
def isDigitDot (c : Char) : Bool := c.isDigit || c = '.'

/-- Matcher for the right-anchored `\s*[\d.]+\s*(m|km)\s*$`: returns the
kept prefix (with the whitespace belonging to the leading `\s*` of the
match removed), or `none` when the suffix does not match. -/
def distEndKept (cs : List Char) : Option (List Char) :=
  let r := cs.reverse.dropWhile Char.isWhitespace
  match r with
  | m :: r2 =>
    if lowChar m = 'm' then
      -- unit "m": digits (after optional whitespace) directly before
      let rA := r2.dropWhile Char.isWhitespace
      let dsA := rA.takeWhile isDigitDot
      if dsA ≠ [] then
        some (dropTrailWs (rA.drop dsA.length).reverse)
      else
        -- unit "km"
        match r2 with
        | k :: r3 =>
          if lowChar k = 'k' then
            let rB := r3.dropWhile Char.isWhitespace
            let dsB := rB.takeWhile isDigitDot
            if dsB ≠ [] then some (dropTrailWs (rB.drop dsB.length).reverse) else none
          else none
        | [] => none
    else none
  | [] => none

/-- `re.sub(r'\s*[\d.]+\s*(m|km)\s*$', '', name, IGNORECASE)`. -/
def cutDistEndL (cs : List Char) : List Char := (distEndKept cs).getD cs

/-- Matcher for `^[\d.]+\s*(m|km)\s+`: returns the remainder after the
leading distance token, or `none`. -/
def distStartRem (cs : List Char) : Option (List Char) :=
  let ds := cs.takeWhile isDigitDot
  if ds = [] then none
  else
    let r1 := (cs.drop ds.length).dropWhile Char.isWhitespace
    match r1 with
    | u :: r2 =>
      if lowChar u = 'm' then
        -- `m` must be followed by at least one whitespace character
        match r2 with
        | w :: _ => if w.isWhitespace then some (r2.dropWhile Char.isWhitespace) else none
        | [] => none
      else if lowChar u = 'k' then
        match r2 with
        | u2 :: r3 =>
          if lowChar u2 = 'm' then
            match r3 with
            | w :: _ => if w.isWhitespace then some (r3.dropWhile Char.isWhitespace) else none
            | [] => none
          else none
        | [] => none
      else none
    | [] => none

/-- `re.sub(r'^[\d.]+\s*(m|km)\s+', '', name, IGNORECASE)`. -/
def cutDistStartL (cs : List Char) : List Char := (distStartRem cs).getD cs

/-! ## `GarminExerciseLookup.normalize` (`garmin_lookup.py`) -/

/-- The normalization pipeline of `GarminExerciseLookup.normalize`,
one Python statement per stage, on character lists. -/
def gNormL (cs : List Char) : List Char :=
  let n0 := trimL (lowerL cs)
  let n1 := trimL (rstripPipeL n0)
  let n2 := stripSetLabelL n1
  let n3 := stripEquipGo equipToks n2
  let n4 := cutXRepsL n3
  let n5 := cutEachPerL n4
  let n6 := cutDistEndL n5
  let n7 := cutDistStartL n6
  trimL n7

/-- `GarminExerciseLookup.normalize`. -/
def garminNormalize (s : String) : String := String.mk (gNormL s.data)

/-! ## `normalize_name` (`exercise_name_matcher.py`) -/

/-- The ordered alias replacement table of `normalize_name`. -/
def nnReplacements : List (String × String) :=
  [("db ", "dumbbell "), ("bb ", "barbell "), ("wb ", "wall ball "),
   ("kb ", "kettlebell "), ("oh ", "overhead "), ("ohp", "overhead press"),
   ("pu ", "push up "), ("pressup", "push up")]

/-- Is the character in the kept class `[a-z0-9\s]`? -/
def isKeptNN (c : Char) : Bool := ('a' ≤ c && c ≤ 'z') || c.isDigit || c.isWhitespace

/-- `normalize_name` on character lists: lowercase and trim, apply the
alias replacements in order, hyphens/underscores to spaces, map every
other character outside `[a-z0-9\s]` to a space, collapse whitespace,
strip. -/
def nnL (cs : List Char) : List Char :=
  if cs = [] then []
  else
    let s0 := trimL (lowerL cs)
    let s1 := nnReplacements.foldl (fun a kv => replL kv.1.data kv.2.data a) s0
    let s2 := replaceCharL '_' ' ' (replaceCharL '-' ' ' s1)
    let s3 := s2.map (fun c => if isKeptNN c then c else ' ')
    let s4 := collapseWsL s3
    trimL s4

/-- `normalize_name`. -/
def normalizeName (s : String) : String := String.mk (nnL s.data)

/-! ## Fixed points of the two normalizers (for claim C9)

A second normalization pass is the identity exactly when none of the
strip/replace rules fires on the output of the first pass.  The guards
below state, rule by rule, that nothing fires. -/

/-- No ASCII uppercase letter present (the lowercasing step is a no-op). -/
def noUpper (cs : List Char) : Bool := cs.all (fun c => !c.isUpper)

/-- Neither end carries whitespace (every `strip()` is a no-op). -/
def notWsEnds (cs : List Char) : Bool :=
  (match cs.head? with | some c => !c.isWhitespace | none => true) &&
  (match cs.getLast? with | some c => !c.isWhitespace | none => true)

/-- Whitespace-run shape: no two adjacent whitespace characters. -/
def noWsPair : List Char → Bool
  | a :: b :: r => !(a.isWhitespace && b.isWhitespace) && noWsPair (b :: r)
  | _ => true

/-- Every whitespace character is a plain space. -/
def allWsSpace (cs : List Char) : Bool := cs.all (fun c => !c.isWhitespace || c = ' ')

/-- All the rules of `normalize_name` leave the string unchanged. -/
def nnFixed (cs : List Char) : Bool :=
  noUpper cs && notWsEnds cs &&
  nnReplacements.all (fun kv => !containsSub kv.1.data cs) &&
  !cs.contains '-' && !cs.contains '_' &&
  cs.all isKeptNN && allWsSpace cs && noWsPair cs

/-- All the rules of `GarminExerciseLookup.normalize` leave the string
unchanged. -/
def gFixed (cs : List Char) : Bool :=
  noUpper cs && notWsEnds cs && (cs.getLast? ≠ some '|') &&
  (setLabelRem cs).isNone &&
  equipToks.all (fun p => !p.isPrefixOf cs) &&
  (findXIdx cs).isNone && (findEachPerIdx cs).isNone &&
  (distEndKept cs).isNone && (distStartRem cs).isNone

theorem toLower_eq_self {c : Char} (h : c.isUpper = false) : c.toLower = c := by
  simp only [Char.isUpper, Bool.and_eq_false_iff, decide_eq_false_iff_not] at h
  simp only [Char.toLower]
  rw [if_neg]
  intro hc
  rcases hc with ⟨h1, h2⟩
  simp only [Char.toNat] at h1 h2
  rcases h with h | h
  · exact h h1
  · exact h h2

theorem lowerL_eq_self {cs : List Char} (h : noUpper cs = true) : lowerL cs = cs := by
  induction cs with
  | nil => rfl
  | cons c rest ih =>
    simp only [noUpper, List.all_cons, Bool.and_eq_true, Bool.not_eq_true'] at h
    simp only [lowerL, List.map_cons, lowChar]
    rw [toLower_eq_self h.1]
    have := ih (by simpa [noUpper] using h.2)
    simpa [lowerL] using this

theorem dropWhile_eq_self_of_head {p : Char → Bool} {cs : List Char}
    (h : match cs.head? with | some c => p c = false | none => True) :
    cs.dropWhile p = cs := by
  cases cs with
  | nil => rfl
  | cons c rest =>
    simp only [List.head?] at h
    simp [List.dropWhile_cons, h]

theorem trimL_eq_self {cs : List Char} (h : notWsEnds cs = true) : trimL cs = cs := by
  simp only [notWsEnds, Bool.and_eq_true] at h
  have h1 : cs.dropWhile Char.isWhitespace = cs := by
    apply dropWhile_eq_self_of_head
    cases hh : cs.head? with
    | none => trivial
    | some c =>
      rw [hh] at h
      simpa using h.1
  have h2 : cs.reverse.dropWhile Char.isWhitespace = cs.reverse := by
    apply dropWhile_eq_self_of_head
    cases hh : cs.reverse.head? with
    | none => trivial
    | some c =>
      rw [List.head?_reverse] at hh
      rw [hh] at h
      simpa using h.2
  simp only [trimL, h1, h2, List.reverse_reverse]

theorem rstripPipeL_eq_self {cs : List Char} (h : cs.getLast? ≠ some '|') :
    rstripPipeL cs = cs := by
  have h2 : cs.reverse.dropWhile (fun c => c = '|') = cs.reverse := by
    apply dropWhile_eq_self_of_head
    cases hh : cs.reverse.head? with
    | none => trivial
    | some c =>
      rw [List.head?_reverse] at hh
      simp only [decide_eq_false_iff_not]
      intro hc
      exact h (by rw [hh, hc])
  simp only [rstripPipeL, h2, List.reverse_reverse]

theorem stripEquipGo_eq_self {cs : List Char} :
    ∀ toks : List (List Char), (∀ p ∈ toks, p.isPrefixOf cs = false) →
      stripEquipGo toks cs = cs := by
  intro toks
  induction toks with
  | nil => intro _; rfl
  | cons p ps ih =>
    intro h
    have hp := h p (by simp)
    simp only [stripEquipGo, hp, Bool.false_eq_true, if_false]
    exact ih (fun q hq => h q (by simp [hq]))

theorem replAux_eq_self {pat rep : List Char} :
    ∀ (fuel : Nat) (cs : List Char), containsSub pat cs = false →
      replAux pat rep fuel cs = cs := by
  intro fuel
  induction fuel with
  | zero => intro cs _; cases cs <;> rfl
  | succ n ih =>
    intro cs h
    cases cs with
    | nil => rfl
    | cons c rest =>
      simp only [containsSub, Bool.or_eq_false_iff] at h
      simp only [replAux]
      rw [if_neg]
      · rw [ih rest h.2]
      · intro hcon
        exact absurd h.1 (by simp [hcon.2])

theorem replL_eq_self {pat rep cs : List Char} (h : containsSub pat cs = false) :
    replL pat rep cs = cs := replAux_eq_self _ _ h

theorem map_eq_self {f : Char → Char} {cs : List Char}
    (h : ∀ c ∈ cs, f c = c) : cs.map f = cs := by
  induction cs with
  | nil => rfl
  | cons c rest ih =>
    simp only [List.map_cons]
    rw [h c (by simp), ih (fun x hx => h x (by simp [hx]))]

theorem replaceCharL_eq_self {a b : Char} {cs : List Char}
    (h : cs.contains a = false) : replaceCharL a b cs = cs := by
  apply map_eq_self
  intro c hc
  have : ¬ c = a := by
    intro hcon
    subst hcon
    rw [List.contains_eq_any_beq] at h
    simp only [List.any_eq_false] at h
    exact absurd (by simp : (c == c) = true) (by simpa using h c hc)
  simp [this]

theorem collapseAux_eq_self {cs : List Char}
    (hsp : allWsSpace cs = true) (hnp : noWsPair cs = true) :
    (collapseAux false cs = cs) ∧
      ((match cs.head? with | some c => c.isWhitespace = false | none => True) →
        collapseAux true cs = cs) := by
  induction cs with
  | nil => exact ⟨rfl, fun _ => rfl⟩
  | cons c rest ih =>
    have hsp' : allWsSpace rest = true := by
      simp only [allWsSpace, List.all_cons, Bool.and_eq_true] at hsp
      exact hsp.2
    have hnp' : noWsPair rest = true := by
      cases rest with
      | nil => rfl
      | cons d r =>
        simp only [noWsPair, Bool.and_eq_true] at hnp
        exact hnp.2
    have ih' := ih hsp' hnp'
    constructor
    · by_cases hw : c.isWhitespace
      · have hc : c = ' ' := by
          simp only [allWsSpace, List.all_cons, Bool.and_eq_true] at hsp
          rcases hsp with ⟨h1, _⟩
          simp only [Bool.or_eq_true, Bool.not_eq_true'] at h1
          rcases h1 with h1 | h1
          · rw [hw] at h1; exact absurd h1 (by simp)
          · exact of_decide_eq_true h1
        have hrest : match rest.head? with | some d => d.isWhitespace = false | none => True := by
          cases rest with
          | nil => trivial
          | cons d r =>
            simp only [List.head?]
            simp only [noWsPair, Bool.and_eq_true, Bool.not_eq_true',
              Bool.and_eq_false_iff] at hnp
            rcases hnp.1 with h | h
            · rw [hw] at h; exact absurd h (by simp)
            · exact h
        simp only [collapseAux, hw, if_true, Bool.false_eq_true, if_false]
        rw [ih'.2 hrest, hc]
      · simp only [collapseAux, hw, Bool.false_eq_true, if_false]
        rw [ih'.1]
    · intro hhead
      simp only [List.head?] at hhead
      simp only [collapseAux, hhead, Bool.false_eq_true, if_false]
      rw [ih'.1]

theorem collapseWsL_eq_self {cs : List Char}
    (hsp : allWsSpace cs = true) (hnp : noWsPair cs = true) :
    collapseWsL cs = cs := (collapseAux_eq_self hsp hnp).1

theorem nnL_eq_self {cs : List Char} (h : nnFixed cs = true) : nnL cs = cs := by
  simp only [nnFixed, Bool.and_eq_true] at h
  obtain ⟨⟨⟨⟨⟨⟨⟨hup, hte⟩, hrep⟩, hdash⟩, hund⟩, hkept⟩, hws⟩, hpair⟩ := h
  cases hcs : cs with
  | nil => rfl
  | cons c rest =>
    rw [← hcs]
    have hne : ¬ cs = [] := by rw [hcs]; simp
    simp only [nnL, if_neg hne]
    rw [lowerL_eq_self hup, trimL_eq_self hte]
    have hfold : nnReplacements.foldl (fun a kv => replL kv.1.data kv.2.data a) cs = cs := by
      have : ∀ l : List (String × String),
          (∀ kv ∈ l, containsSub kv.1.data cs = false) →
            l.foldl (fun a kv => replL kv.1.data kv.2.data a) cs = cs := by
        intro l
        induction l with
        | nil => intro _; rfl
        | cons kv kvs ih =>
          intro hl
          simp only [List.foldl_cons]
          rw [replL_eq_self (hl kv (by simp))]
          exact ih (fun x hx => hl x (by simp [hx]))
      apply this
      intro kv hkv
      simp only [List.all_eq_true] at hrep
      simpa using hrep kv hkv
    rw [hfold]
    have hinner : replaceCharL '-' ' ' cs = cs := replaceCharL_eq_self (by simpa using hdash)
    rw [hinner]
    have houter : replaceCharL '_' ' ' cs = cs := replaceCharL_eq_self (by simpa using hund)
    rw [houter]
    have hmap : cs.map (fun c => if isKeptNN c then c else ' ') = cs := by
      apply map_eq_self
      intro x hx
      simp only [List.all_eq_true] at hkept
      simp [hkept x hx]
    rw [hmap]
    rw [collapseWsL_eq_self hws hpair, trimL_eq_self hte]

theorem gNormL_eq_self {cs : List Char} (h : gFixed cs = true) : gNormL cs = cs := by
  simp only [gFixed, Bool.and_eq_true] at h
  obtain ⟨⟨⟨⟨⟨⟨⟨⟨hup, hte⟩, hpipe⟩, hlab⟩, hequip⟩, hx⟩, hep⟩, hde⟩, hds⟩ := h
  simp only [gNormL]
  rw [lowerL_eq_self hup, trimL_eq_self hte]
  rw [rstripPipeL_eq_self (by simpa using hpipe), trimL_eq_self hte]
  have hlab' : setLabelRem cs = none := by
    cases hv : setLabelRem cs with
    | none => rfl
    | some v => rw [hv] at hlab; simp at hlab
  rw [show stripSetLabelL cs = cs from by simp [stripSetLabelL, hlab']]
  rw [stripEquipGo_eq_self equipToks (by
    intro p hp
    simp only [List.all_eq_true] at hequip
    simpa using hequip p hp)]
  have hx' : findXIdx cs = none := by
    cases hv : findXIdx cs with
    | none => rfl
    | some v => rw [hv] at hx; simp at hx
  rw [show cutXRepsL cs = cs from by simp [cutXRepsL, hx']]
  have hep' : findEachPerIdx cs = none := by
    cases hv : findEachPerIdx cs with
    | none => rfl
    | some v => rw [hv] at hep; simp at hep
  rw [show cutEachPerL cs = cs from by simp [cutEachPerL, hep']]
  have hde' : distEndKept cs = none := by
    cases hv : distEndKept cs with
    | none => rfl
    | some v => rw [hv] at hde; simp at hde
  rw [show cutDistEndL cs = cs from by simp [cutDistEndL, hde']]
  have hds' : distStartRem cs = none := by
    cases hv : distStartRem cs with
    | none => rfl
    | some v => rw [hv] at hds; simp at hds
  rw [show cutDistStartL cs = cs from by simp [cutDistStartL, hds']]
  exact trimL_eq_self hte

theorem normalizeName_def (s : String) : normalizeName s = String.mk (nnL s.data) := by
  unfold normalizeName
  exact Eq.refl (String.mk (nnL s.data))

theorem garminNormalize_def (s : String) :
    garminNormalize s = String.mk (gNormL s.data) := by
  unfold garminNormalize
  exact Eq.refl (String.mk (gNormL s.data))

theorem data_normalizeName (s : String) : (normalizeName s).data = nnL s.data := by
  rw [normalizeName_def]

theorem data_garminNormalize (s : String) : (garminNormalize s).data = gNormL s.data := by
  rw [garminNormalize_def]

/-- C9 counterexample.  The claim "normalize(normalize(x)) = normalize(x)"
fails for both normalizers: `normalize_name "db-x"` is `"db x"`, and a
second pass expands the now-exposed alias `"db "`; the catalog
normalizer maps `"kb db press"` to `"db press"` (the equipment loop
checks `"db "` before `"kb "` strips it), and a second pass strips the
now-leading `"db "`. -/
theorem C9_normalize_idempotent_counterexample :
    normalizeName (normalizeName "db-x") ≠ normalizeName "db-x" ∧
      garminNormalize (garminNormalize "kb db press") ≠ garminNormalize "kb db press" := by
  constructor <;> decide

/-- C9 amended.  Idempotence holds exactly on the inputs whose normalized
form triggers none of the strip/replace rules: if no alias pattern,
uppercase letter, hyphen/underscore, out-of-class character, whitespace
anomaly (for `normalize_name`), resp. no set label, equipment token, rep
marker, each/per-side marker, distance token or trailing pipe (for
`GarminExerciseLookup.normalize`) remains in the normalized output, then
a second normalization is the identity; in general it can strip further,
as the counterexample shows. -/
theorem C9_normalize_idempotent_amended (s : String) :
    (nnFixed (nnL s.data) = true → normalizeName (normalizeName s) = normalizeName s) ∧
      (gFixed (gNormL s.data) = true →
        garminNormalize (garminNormalize s) = garminNormalize s) := by
  constructor
  · intro h
    rw [normalizeName_def (normalizeName s), data_normalizeName, nnL_eq_self h,
      ← normalizeName_def]
  · intro h
    rw [garminNormalize_def (garminNormalize s), data_garminNormalize, gNormL_eq_self h,
      ← garminNormalize_def]

/-- Witness for the amended C9 at the concrete input "squat". -/
theorem C9_normalize_idempotent_amended_witness :
    (nnFixed (nnL (String.data "squat")) = true ∧
        gFixed (gNormL (String.data "squat")) = true) ∧
      normalizeName (normalizeName "squat") = normalizeName "squat" ∧
        garminNormalize (garminNormalize "squat") = garminNormalize "squat" :=
  ⟨⟨by decide, by decide⟩,
    (C9_normalize_idempotent_amended "squat").1 (by decide),
    (C9_normalize_idempotent_amended "squat").2 (by decide)⟩

/-! ## CRC-16 and the FIT file envelope (`blocks_to_fit.py`, `crc16` / `to_fit`) -/

/-- The 4-bit FIT CRC table (`crc_table` in `crc16`). -/
def crcTable : List Nat :=
  [0x0000, 0xCC01, 0xD801, 0x1400, 0xF001, 0x3C00, 0x2800, 0xE401,
   0xA001, 0x6C00, 0x7800, 0xB401, 0x5000, 0x9C01, 0x8801, 0x4400]

/-- One byte of the FIT CRC-16: two 4-bit table steps, as in the Python
loop body of `crc16`. -/
def crcByte (crc b : Nat) : Nat :=
  let tmp := crcTable.getD (crc &&& 0xF) 0
  let crc1 := (crc >>> 4) &&& 0x0FFF
  let crc2 := crc1 ^^^ tmp ^^^ crcTable.getD (b &&& 0xF) 0
  let tmp2 := crcTable.getD (crc2 &&& 0xF) 0
  let crc3 := (crc2 >>> 4) &&& 0x0FFF
  crc3 ^^^ tmp2 ^^^ crcTable.getD ((b >>> 4) &&& 0xF) 0

/-- `crc16(data)`: fold the per-byte step over the data, starting at 0. -/
def crc16 (data : List Nat) : Nat := data.foldl crcByte 0

/-- Little-endian 16-bit encoding (`struct.pack('<H', v)`). -/
def u16le (v : Nat) : List Nat := [v % 256, (v / 256) % 256]

/-- Little-endian 32-bit encoding (`struct.pack('<I', v)`). -/
def u32le (v : Nat) : List Nat :=
  [v % 256, (v / 256) % 256, (v / 65536) % 256, (v / 16777216) % 256]

/-- Value of two little-endian bytes (how a FIT reader decodes a CRC). -/
def decodeU16 : List Nat → Nat
  | a :: b :: _ => a + 256 * b
  | [a] => a
  | [] => 0

/-- The first 12 header bytes written by `to_fit`:
`struct.pack('<BBHI4s', 14, 0x10, 0x527D, len(data), b'.FIT')`. -/
def fitHeaderBase (dataLen : Nat) : List Nat :=
  [14, 0x10] ++ u16le 0x527D ++ u32le dataLen ++ [0x2E, 0x46, 0x49, 0x54]

/-- The byte-level FIT file envelope built by the last lines of `to_fit`:
12 header bytes, the 16-bit header CRC, the data region, and the 16-bit
data CRC.  `to_fit` returns exactly this applied to the data region it
assembled. -/
def fitFileBytes (data : List Nat) : List Nat :=
  let hb := fitHeaderBase data.length
  (hb ++ u16le (crc16 hb)) ++ data ++ u16le (crc16 data)

theorem crcTable_getD_lt (i : Nat) : crcTable.getD i 0 < 65536 := by
  rcases Nat.lt_or_ge i 16 with h | h
  · interval_cases i <;> decide
  · rw [List.getD_eq_default]
    · decide
    · have : crcTable.length = 16 := by decide
      omega

theorem crcByte_lt (c b : Nat) : crcByte c b < 65536 := by
  unfold crcByte
  apply Nat.xor_lt_two_pow (n := 16)
  · apply Nat.xor_lt_two_pow (n := 16)
    · calc ((c >>> 4) &&& 0x0FFF ^^^ crcTable.getD (c &&& 0xF) 0 ^^^
            crcTable.getD (b &&& 0xF) 0) >>> 4 &&& 0x0FFF ≤ 0x0FFF := Nat.and_le_right
        _ < 65536 := by norm_num
    · exact crcTable_getD_lt _
  · exact crcTable_getD_lt _

theorem crc16_fold_lt (l : List Nat) : ∀ acc, acc < 65536 → l.foldl crcByte acc < 65536 := by
  induction l with
  | nil => intro acc h; simpa using h
  | cons a rest ih =>
    intro acc _
    simp only [List.foldl_cons]
    exact ih (crcByte acc a) (crcByte_lt acc a)

theorem crc16_lt (data : List Nat) : crc16 data < 65536 :=
  crc16_fold_lt data 0 (by norm_num)

theorem decodeU16_u16le {v : Nat} (h : v < 65536) : decodeU16 (u16le v) = v := by
  simp only [u16le, decodeU16]
  have hdiv : v / 256 < 256 := by omega
  rw [Nat.mod_eq_of_lt hdiv]
  exact Nat.mod_add_div v 256

theorem fitHeaderBase_length (n : Nat) : (fitHeaderBase n).length = 12 := by
  simp [fitHeaderBase, u16le, u32le]

/-- C2.  Every FIT file returned by the encoder begins with a 14-byte
header - size 14, protocol byte 0x10, profile version 0x527D little
endian, the data-region byte count as little-endian 32 bits, the ASCII
tag ".FIT", and the 16-bit CRC of the preceding 12 bytes - and ends with
the 16-bit CRC of the data region; both stored CRCs equal the 4-bit-table
FIT CRC-16 of the bytes they cover.  `to_fit` returns `fitFileBytes`
applied to the data region it assembles, so this holds of every file the
encoder produces (`struct.pack('<I', ...)` requires the data length to be
below 2^32, the hypothesis). -/
theorem C2_fit_envelope (data : List Nat) (hlen : data.length < 2 ^ 32) :
    (fitFileBytes data).length = data.length + 16 ∧
    (fitFileBytes data).take 12 =
      [14, 0x10, 0x7D, 0x52] ++ u32le data.length ++ [0x2E, 0x46, 0x49, 0x54] ∧
    decodeU16 (((fitFileBytes data).drop 12).take 2) =
      crc16 ((fitFileBytes data).take 12) ∧
    ((fitFileBytes data).drop 14).take data.length = data ∧
    (fitFileBytes data).drop (14 + data.length) =
      u16le (crc16 (((fitFileBytes data).drop 14).take data.length)) := by
  have hhb : (fitHeaderBase data.length).length = 12 := fitHeaderBase_length _
  have hu16 : ∀ v : Nat, (u16le v).length = 2 := by intro v; simp [u16le]
  have hassoc : fitFileBytes data =
      fitHeaderBase data.length ++
        (u16le (crc16 (fitHeaderBase data.length)) ++ (data ++ u16le (crc16 data))) := by
    simp only [fitFileBytes]
    simp [List.append_assoc]
  have htake12 : (fitFileBytes data).take 12 = fitHeaderBase data.length := by
    rw [hassoc]
    exact List.take_left' hhb
  have hdrop12 : (fitFileBytes data).drop 12 =
      u16le (crc16 (fitHeaderBase data.length)) ++ (data ++ u16le (crc16 data)) := by
    rw [hassoc]
    exact List.drop_left' hhb
  have hdrop14 : (fitFileBytes data).drop 14 = data ++ u16le (crc16 data) := by
    have h14 : (fitHeaderBase data.length ++ u16le (crc16 (fitHeaderBase data.length))).length
        = 14 := by
      rw [List.length_append, hhb, hu16]
    have : fitFileBytes data =
        (fitHeaderBase data.length ++ u16le (crc16 (fitHeaderBase data.length))) ++
          (data ++ u16le (crc16 data)) := by
      simp only [fitFileBytes]
      simp [List.append_assoc]
    rw [this]
    exact List.drop_left' h14
  have hdata : ((fitFileBytes data).drop 14).take data.length = data := by
    rw [hdrop14]
    exact List.take_left' rfl
  refine ⟨?_, ?_, ?_, hdata, ?_⟩
  · rw [hassoc]
    simp only [List.length_append, hhb, hu16]
    omega
  · rw [htake12]
    simp only [fitHeaderBase]
    norm_num [u16le]
  · rw [htake12, hdrop12]
    rw [List.take_left' (hu16 _)]
    exact decodeU16_u16le (crc16_lt _)
  · rw [hdata]
    have : (fitFileBytes data).drop (14 + data.length) =
        ((fitFileBytes data).drop 14).drop data.length := by
      rw [List.drop_drop]
    rw [this, hdrop14]
    exact List.drop_left' rfl

/-- Witness for C2 at the concrete data region `[0, 1, 2]`. -/
theorem C2_fit_envelope_witness :
    ([(0 : Nat), 1, 2].length < 2 ^ 32) ∧
      decodeU16 (((fitFileBytes [0, 1, 2]).drop 12).take 2) =
        crc16 ((fitFileBytes [0, 1, 2]).take 12) ∧
      (fitFileBytes [0, 1, 2]).drop (14 + 3) =
        u16le (crc16 (((fitFileBytes [0, 1, 2]).drop 14).take 3)) :=
  ⟨by norm_num,
    (C2_fit_envelope [0, 1, 2] (by norm_num)).2.2.1,
    (C2_fit_envelope [0, 1, 2] (by norm_num)).2.2.2.2⟩

/-! ## Category remapping (`blocks_to_fit.py`, `validate_category_id`) -/

/-- `MAX_VALID_CATEGORY_ID = 32`. -/
def maxValidCategoryId : Nat := 32

/-- `INVALID_CATEGORY_FALLBACK`: remap table for the extended categories
33..43. -/
def invalidCategoryFallback (c : Nat) : Option Nat :=
  match c with
  | 33 => some 29
  | 34 => some 29
  | 35 => some 29
  | 36 => some 29
  | 37 => some 29
  | 38 => some 2
  | 39 => some 29
  | 40 => some 29
  | 41 => some 29
  | 42 => some 29
  | 43 => some 29
  | _ => none

/-- `validate_category_id`: identity on 0..32, table remap on 33..43,
29 for anything else. -/
def validateCategoryId (category_id : Nat) : Nat :=
  if category_id ≤ maxValidCategoryId then category_id
  else
    match invalidCategoryFallback category_id with
    | some v => v
    | none => 29

/-! ## The Blocks input model (the `blocks_json` payload as read by
`blocks_to_steps` and `workflow.py`)

Durations, rests and counts arrive as JSON integers (`Nat`); `reps` may
be an integer or a string ("8-10", "500m"); `distance_m` may carry a
decimal fraction (`ℚ`).  An absent key and a key holding `None` both
become `none`. -/

/-- A Python `reps` value: integer or string. -/
inductive RepsVal
  | int (n : Int)
  | str (s : String)
deriving DecidableEq

/-- One exercise dict. -/
structure Exercise where
  name : Option String := none
  reps : Option RepsVal := none
  reps_range : Option String := none
  sets : Option Nat := none
  duration_sec : Option Nat := none
  distance_m : Option ℚ := none
  rest_sec : Option Nat := none
  rest_type : Option String := none
  warmup_sets : Option Nat := none
  warmup_reps : Option Nat := none
  ty : Option String := none
deriving DecidableEq

/-- One superset dict. -/
structure Superset where
  exercises : List Exercise := []
  rest_between_sec : Option Nat := none
  rest_type : Option String := none
deriving DecidableEq

/-- One block dict.  `structureStr` is the `"structure"` key. -/
structure Block where
  label : Option String := none
  structureStr : Option String := none
  warmup_enabled : Bool := false
  warmup_activity : Option String := none
  warmup_duration_sec : Option Nat := none
  rest_between_sets_sec : Option Nat := none
  rest_between_sec : Option Nat := none
  rest_between_rounds_sec : Option Nat := none
  rest_type : Option String := none
  exercises : List Exercise := []
  supersets : List Superset := []
deriving DecidableEq

/-- The `blocks_json` root. -/
structure BlocksJson where
  title : Option String := none
  blocks : List Block := []
deriving DecidableEq

/-- What `GarminExerciseLookup.find` returns, as consumed by
`blocks_to_steps` (a parameter of the embedding: the catalog data file
lives outside `src/`). -/
structure LookupResult where
  category_id : Nat
  category_name : String
  display_name : Option String := none
  match_type : String
  exercise_name_id : Option Nat := none

/-! ## Compiled steps (`blocks_to_steps` output dicts) -/

/-- One compiled step: the four dict shapes appended by
`blocks_to_steps`. -/
inductive Step
  | ex (display_name : String) (category_id : Nat) (intensity : Nat)
      (duration_type : Nat) (duration_value : Int) (exercise_name_id : Option Nat)
  | rest (display_name : String) (intensity : Nat) (duration_type : Nat)
      (duration_value : Int)
  | rep (duration_step : Nat) (repeat_count : Nat)
  | warmup (display_name : String) (intensity : Nat) (duration_type : Nat)
      (duration_value : Int) (category_id : Nat) (category_name : String)
deriving DecidableEq

/-- `_create_rest_step(duration_sec, rest_type)`. -/
def createRestStep (duration_sec : Nat) (rest_ty : String) : Step :=
  if rest_ty = "button" then Step.rest "Rest" 1 5 0
  else Step.rest "Rest" 1 0 (duration_sec * 1000)

/-- `WARMUP_ACTIVITY_NAMES`. -/
def warmupActivityNames : List (String × String) :=
  [("stretching", "Stretching"), ("jump_rope", "Jump Rope"), ("air_bike", "Air Bike"),
   ("treadmill", "Treadmill"), ("stairmaster", "Stairmaster"), ("rowing", "Rowing"),
   ("custom", "Warm-Up")]

/-- Display name chosen by `_create_warmup_step` (`""` is falsy in
Python, hence the extra test). -/
def warmupDisplayName (activity : Option String) : String :=
  match activity with
  | none => "Warm-Up"
  | some a => if a = "" then "Warm-Up" else (warmupActivityNames.lookup a).getD "Warm-Up"

/-- `_create_warmup_step(duration_sec, activity)`. -/
def createWarmupStep (duration_sec : Option Nat) (activity : Option String) : Step :=
  let dn := warmupDisplayName activity
  match duration_sec with
  | some d => if d > 0 then Step.warmup dn 1 0 (d * 1000) 2 "Cardio"
              else Step.warmup dn 1 5 0 2 "Cardio"
  | none => Step.warmup dn 1 5 0 2 "Cardio"

/-- `parse_structure(structure_str)`: first digit run, default 1. -/
def parseStructure (s : Option String) : Nat :=
  match s with
  | none => 1
  | some str =>
    if str = "" then 1
    else
      match findDigitRun str.data with
      | some ds => natOfDigits ds
      | none => 1

/-- Python truthiness of an optional number. -/
def truthyNat (o : Option Nat) : Bool :=
  match o with
  | none => false
  | some n => n ≠ 0

/-- Python truthiness of an optional string. -/
def truthyStr (o : Option String) : Bool :=
  match o with
  | none => false
  | some s => s ≠ ""

/-- `rest_between_sets = block.get('rest_between_sets_sec') or
block.get('rest_between_sec', 30) or 30`. -/
def restBetweenSets (b : Block) : Nat :=
  match b.rest_between_sets_sec with
  | some n => if n ≠ 0 then n else (match b.rest_between_sec with
      | some m => if m ≠ 0 then m else 30
      | none => 30)
  | none => match b.rest_between_sec with
      | some m => if m ≠ 0 then m else 30
      | none => 30

/-- The bookkeeping keys `blocks_to_steps` writes into each exercise dict
before compiling it (`_superset_idx` and friends). -/
structure ExMeta where
  superset_idx : Option Nat
  is_last_in_superset : Bool
  superset_rest : Option Nat
  superset_rest_type : String
  is_last_superset : Bool
deriving DecidableEq

/-- The superset pass of `blocks_to_steps`: every superset's exercises,
each with its bookkeeping keys. -/
def supersetExercises (b : Block) : List (Exercise × ExMeta) :=
  (b.supersets.enum.map (fun p =>
    p.2.exercises.enum.map (fun q =>
      (q.2,
        ExMeta.mk (some p.1) (q.1 = p.2.exercises.length - 1) p.2.rest_between_sec
          (p.2.rest_type.getD "timed")
          (decide (p.1 = b.supersets.length - 1 ∧ b.exercises.isEmpty)))))).join

/-- The standalone pass of `blocks_to_steps`. -/
def standaloneExercises (b : Block) : List (Exercise × ExMeta) :=
  b.exercises.enum.map (fun q =>
    (q.2, ExMeta.mk none false none "timed" (q.1 = b.exercises.length - 1)))

/-- `float(...)` of a `([\d.]+)` regex group, as `Except`: the two
`float(...)` calls in the distance parse of `blocks_to_steps` are the
only statements of the step compiler that can raise. -/
def pyFloatGroup (cs : List Char) : Except PyErr ℚ :=
  match pyFloatDigitsDots cs with
  | some q => Except.ok q
  | none => Except.error PyErr.valueError

/-- Matcher for `^([\d.]+)\s*km$` (resp. `m`): the group, if the whole
string is group + optional whitespace + the unit. -/
def numUnitGroup (unit : List Char) (cs : List Char) : Option (List Char) :=
  let ds := cs.takeWhile isDigitDot
  if ds = [] then none
  else
    let rest := (cs.drop ds.length).dropWhile Char.isWhitespace
    if rest = unit then some ds else none

/-- The `distance_meters` computation of `blocks_to_steps` (lines
343-358): the `distance_m` field first, else a `"500m"`/`"1.5km"` reps
string. -/
def computeDistanceMeters (e : Exercise) : Except PyErr (Option ℚ) :=
  let fromReps : Except PyErr (Option ℚ) :=
    match e.reps with
    | some (RepsVal.str s) =>
      let rs := trimL (lowerL s.data)
      match numUnitGroup (String.data "km") rs with
      | some g => (pyFloatGroup g).map (fun q => some (q * 1000))
      | none =>
        match numUnitGroup (String.data "m") rs with
        | some g => (pyFloatGroup g).map some
        | none => Except.ok none
    | _ => Except.ok none
  match e.distance_m with
  | some d => if d > 0 then Except.ok (some d) else fromReps
  | none => fromReps

/-- `int(reps_raw)` / `int(reps_raw.split('-')[0])` with the `try`
fallbacks of lines 368-377 (`0`, `None` and unparsable strings give the
default 10). -/
def repsValue (r : RepsVal) : Int :=
  match r with
  | RepsVal.int n => if n ≠ 0 then n else 10
  | RepsVal.str s =>
    match pyIntOfChars ((splitCharL '-' s.data).headD []) with
    | some n => n
    | none => 10

/-- The `reps_range` upper-bound parse of lines 378-385. -/
def repsRangeUpper (rr : String) : Int :=
  match (splitWsL (replaceCharL '-' ' ' rr.data)).getLast? with
  | some p => (pyIntOfChars p).getD 10
  | none => 10

/-- The duration_type / duration_value choice of lines 342-391 (the
non-lap-button branch). -/
def durationNonLap (e : Exercise) : Except PyErr (Nat × Int) := do
  let dm ← computeDistanceMeters e
  match dm with
  | some d => pure (1, pyTrunc (d * 100))
  | none =>
    match e.duration_sec with
    | some ds =>
      if ds ≠ 0 then pure (0, (ds * 1000 : Int))
      else pure (match e.reps with
        | some r => (29, repsValue r)
        | none => match e.reps_range with
          | some rr => if rr ≠ "" then (29, repsRangeUpper rr) else (5, 0)
          | none => (5, 0))
    | none => pure (match e.reps with
        | some r => (29, repsValue r)
        | none => match e.reps_range with
          | some rr => if rr ≠ "" then (29, repsRangeUpper rr) else (5, 0)
          | none => (5, 0))

/-- Does `x\d` occur (the `\s*\d*x\d+` search of
`_is_user_confirmed_name`, IGNORECASE: `\s*` and `\d*` may be empty, so
the pattern matches exactly when an `x` is directly followed by a
digit)? -/
def hasXDigit : List Char → Bool
  | [] => false
  | c :: rest =>
    ((c = 'x' || c = 'X') && (match rest.head? with
      | some d => d.isDigit
      | none => false)) || hasXDigit rest

/-- Matcher for `^[\d.]+\s*(m|km|mi)\s+` of `_is_user_confirmed_name`. -/
def distTokenStart (cs : List Char) : Bool :=
  let ds := cs.takeWhile isDigitDot
  if ds = [] then false
  else
    let r1 := (cs.drop ds.length).dropWhile Char.isWhitespace
    match r1 with
    | u :: r2 =>
      if lowChar u = 'm' then
        (match r2 with
         | w :: _ => w.isWhitespace
         | [] => false) ||
        (match r2 with
         | i :: w :: _ => lowChar i = 'i' && w.isWhitespace
         | _ => false)
      else if lowChar u = 'k' then
        match r2 with
        | u2 :: (w :: _) => lowChar u2 = 'm' && w.isWhitespace
        | _ => false
      else false
    | [] => false

/-- `_is_user_confirmed_name(name)`: Title-Case names with no distance
prefix and no rep count are kept as user-confirmed.  The Python float
test `capitalized >= len(words) * 0.6` is exact at `5*cap >= 3*len` for
word counts in range. -/
def isUserConfirmedName (name : String) : Bool :=
  let cs := name.data
  if cs.length < 2 then false
  else if distTokenStart cs then false
  else if hasXDigit cs then false
  else
    let words := splitWsL cs
    if words.length = 0 then false
    else
      let capitalized := (words.filter (fun w =>
        match w.head? with
        | some c => c.isUpper
        | none => false)).length
      5 * capitalized ≥ 3 * words.length

/-- The display-name choice of lines 316-327 (`or` models Python
truthiness of the empty string). -/
def chooseDisplayName (name : String) (m : LookupResult) : String :=
  if m.match_type = "exact" || m.match_type = "exact_with_category_override" then
    match m.display_name with
    | some d => if d ≠ "" then d else name
    | none => name
  else if isUserConfirmedName name then name
  else
    match m.display_name with
    | some d => if d ≠ "" then d else m.category_name
    | none => m.category_name

/-- The mutable state of `blocks_to_steps`: the step list and the
`category_ids_used` set (kept as an insertion-ordered duplicate-free
list). -/
structure CompState where
  steps : List Step
  cats : List Nat
deriving DecidableEq

/-- `category_ids_used.add(c)`. -/
def addCat (cats : List Nat) (c : Nat) : List Nat :=
  if c ∈ cats then cats else cats ++ [c]

/-- The per-exercise rest choice used for warm-up inter-set rest and
working inter-set rest (the identical conditionals of lines 419-425 and
464-473): button rest, else the exercise's own timed rest, else the
block rest-between-sets. -/
def interSetRest (exercise_rest_type : String) (exercise_rest_sec : Option Nat)
    (rbs : Nat) (rtb : String) : List Step :=
  if exercise_rest_type = "button" then [createRestStep 0 "button"]
  else
    match exercise_rest_sec with
    | some r => if r > 0 then [createRestStep r "timed"]
                else if rbs > 0 then [createRestStep rbs rtb] else []
    | none => if rbs > 0 then [createRestStep rbs rtb] else []

/-- The warm-up-set block of one exercise (lines 397-441 after the
condition): the warm-up exercise step, the inter-set rest and repeat
when `warmup_sets > 1`, and the transition rest.  `warmEx` is the
warm-up exercise step built by the caller. -/
def warmupSetsBlock (warmEx : Step) (ws : Nat) (ert : String) (ers : Option Nat)
    (rbs : Nat) (rtb : String) (steps : List Step) : List Step :=
  let wIdx := steps.length
  let l1 := steps ++ [warmEx]
  let l2 := if ws > 1 then l1 ++ interSetRest ert ers rbs rtb else l1
  let l3 := if ws > 1 then l2 ++ [Step.rep wIdx ws] else l2
  -- rest between warm-up and working sets (lines 437-441)
  match ers with
  | some r => if r > 0 then l3 ++ [createRestStep r ert]
              else if rbs > 0 then l3 ++ [createRestStep rbs rtb] else l3
  | none => if rbs > 0 then l3 ++ [createRestStep rbs rtb] else l3

/-- The working-set block of one exercise (lines 443-483): the working
exercise step, then inter-set rest and repeat when `sets > 1`. -/
def workingSetsBlock (workEx : Step) (sets : Nat) (ert : String) (ers : Option Nat)
    (rbs : Nat) (rtb : String) (steps : List Step) : List Step :=
  let startIdx := steps.length
  let l1 := steps ++ [workEx]
  let l2 := if sets > 1 then l1 ++ interSetRest ert ers rbs rtb else l1
  if sets > 1 then l2 ++ [Step.rep startIdx sets] else l2

/-- The guard of the warm-up-set block: `warmup_sets and warmup_sets > 0
and warmup_reps and warmup_reps > 0` (line 402). -/
def warmupCond (e : Exercise) : Bool :=
  match e.warmup_sets, e.warmup_reps with
  | some ws, some wr => ws ≠ 0 && wr ≠ 0
  | _, _ => false

/-- The trailing rests of one exercise (lines 485-502): the
post-exercise rest and the superset rest. -/
def tailRests (e : Exercise) (meta : ExMeta) (isLastBlock : Bool)
    (isLastExercise : Bool) (steps : List Step) : List Step :=
  let exercise_rest_type2 := e.rest_type.getD "timed"
  let l1 :=
    match e.rest_sec with
    | some r =>
      if r > 0 && !(isLastBlock && isLastExercise) then
        steps ++ [createRestStep r exercise_rest_type2]
      else steps
    | none => steps
  match meta.superset_rest with
  | some sr =>
    if meta.is_last_in_superset && sr ≠ 0 &&
        !(isLastBlock && meta.is_last_superset) then
      l1 ++ [createRestStep sr meta.superset_rest_type]
    else l1
  | none => l1

/-- The pure appending part of one exercise compilation (lines 302-502
after the duration choice). -/
def compileExercisePure (lookup : String → LookupResult) (rtb : String) (rbs : Nat)
    (rounds : Nat) (isLastBlock : Bool) (allEx : List (Exercise × ExMeta))
    (em : Exercise × ExMeta) (dtv : Nat × Int) (st : CompState) : CompState :=
  let e := em.1
  let meta := em.2
  let name := e.name.getD "Exercise"
  let m := lookup name
  let category_id := validateCategoryId m.category_id
  let cats := addCat st.cats category_id
  let display_name := chooseDisplayName name m
  let exercise_rest_type :=
    match e.rest_type with
    | some s => if s ≠ "" then s else rtb
    | none => rtb
  let exercise_rest_sec := e.rest_sec
  -- warm-up sets (lines 397-441)
  let steps1 :=
    if warmupCond e then
      warmupSetsBlock
        (Step.ex (display_name ++ " (Warm-Up)") category_id 1 29
          ((e.warmup_reps.getD 0 : Nat) : Int) m.exercise_name_id)
        (e.warmup_sets.getD 0) exercise_rest_type exercise_rest_sec rbs rtb st.steps
    else st.steps
  -- working set (lines 443-483)
  let sets :=
    match e.sets with
    | some n => if n ≠ 0 then n else rounds
    | none => rounds
  let steps4 := workingSetsBlock
    (Step.ex display_name category_id 0 dtv.1 dtv.2 m.exercise_name_id)
    sets exercise_rest_type exercise_rest_sec rbs rtb steps1
  -- trailing rests (lines 485-502); Python `all_exercises.index(exercise)`
  -- compares value-equal dicts, metadata keys included
  let isLastExercise := allEx.indexOf em = allEx.length - 1
  CompState.mk (tailRests e meta isLastBlock isLastExercise steps4) cats

/-- One exercise compilation: the duration choice (which can raise on a
bad distance string), then the pure appends. -/
def compileExercise (lookup : String → LookupResult) (useLap : Bool) (rtb : String)
    (rbs : Nat) (rounds : Nat) (isLastBlock : Bool) (allEx : List (Exercise × ExMeta))
    (em : Exercise × ExMeta) (st : CompState) : Except PyErr CompState :=
  (if useLap then Except.ok (5, (0 : Int)) else durationNonLap em.1).map
    (fun dtv => compileExercisePure lookup rtb rbs rounds isLastBlock allEx em dtv st)

/-- One block of `blocks_to_steps` (lines 259-506). -/
def compileBlock (lookup : String → LookupResult) (useLap : Bool) (numBlocks : Nat)
    (bi : Nat) (b : Block) (st : CompState) : Except PyErr CompState := do
  let st0 : CompState :=
    if b.warmup_enabled then
      CompState.mk (st.steps ++ [createWarmupStep b.warmup_duration_sec b.warmup_activity])
        st.cats
    else st
  let rounds := parseStructure b.structureStr
  let rbs := restBetweenSets b
  let rtb := b.rest_type.getD "timed"
  let isLastBlock := bi = numBlocks - 1
  let allEx := supersetExercises b ++ standaloneExercises b
  let st1 ← allEx.foldlM
    (fun s em => compileExercise lookup useLap rtb rbs rounds isLastBlock allEx em s) st0
  let st2 : CompState :=
    match b.rest_between_rounds_sec with
    | some r => if r ≠ 0 && !isLastBlock then
        CompState.mk (st1.steps ++ [createRestStep r rtb]) st1.cats
      else st1
    | none => st1
  pure st2

/-- `blocks_to_steps(blocks_json, use_lap_button)`. -/
def blocksToSteps (bj : BlocksJson) (lookup : String → LookupResult) (useLap : Bool) :
    Except PyErr (List Step × List Nat) := do
  let blocks := bj.blocks
  let init : CompState :=
    match blocks.head? with
    | none => CompState.mk [createWarmupStep none none] []
    | some b0 =>
      if !b0.warmup_enabled then CompState.mk [createWarmupStep none none] []
      else CompState.mk [] []
  let fin ← blocks.enum.foldlM
    (fun s p => compileBlock lookup useLap blocks.length p.1 p.2 s) init
  pure (fin.steps, fin.cats)

/-! ## C1: the literal "Push Day" workout -/

/-- The classifying shape of a step: its kind and the fields claim C1
names (duration type and value; repeat target and count).  Display names
and category ids come from the external catalog and are not part of the
claim. -/
inductive StepShape
  | ex (dt : Nat) (dv : Int)
  | rest (dt : Nat) (dv : Int)
  | rep (t : Nat) (c : Nat)
  | warmup (dt : Nat) (dv : Int)
deriving DecidableEq

/-- Shape of one step. -/
def stepShape : Step → StepShape
  | Step.ex _ _ _ dt dv _ => StepShape.ex dt dv
  | Step.rest _ _ dt dv => StepShape.rest dt dv
  | Step.rep t c => StepShape.rep t c
  | Step.warmup _ _ dt dv _ _ => StepShape.warmup dt dv

/-- The literal input of claim C1. -/
def c1PushDay : BlocksJson :=
  { title := some "Push Day"
    blocks := [{ structureStr := some "3 rounds"
                 rest_between_sec := some 30
                 supersets := [{ exercises := [
                   { name := some "Push Ups", reps := some (RepsVal.int 10), sets := some 3 },
                   { name := some "Squats", reps := some (RepsVal.int 15), sets := some 3 }] }] }] }

/-- C1.  On the literal "Push Day" input with `use_lap_button=False`, and
for every catalog lookup, the step compiler produces exactly: a default
lap-button warm-up (open), a reps-10 exercise step, a timed 30 s rest, a
repeat with target 1 and total count 3, a reps-15 exercise step, a timed
30 s rest, and a repeat with target 4 and count 3. -/
theorem C1_push_day_steps (lookup : String → LookupResult) :
    (blocksToSteps c1PushDay lookup false).map (fun p => p.1.map stepShape) =
      Except.ok [StepShape.warmup 5 0, StepShape.ex 29 10, StepShape.rest 0 30000,
        StepShape.rep 1 3, StepShape.ex 29 15, StepShape.rest 0 30000,
        StepShape.rep 4 3] := by
  rfl

/-! ## C3: repeat steps point strictly back at exercise or warm-up steps -/

/-- Is the step an exercise step? -/
def stepIsExercise : Step → Bool
  | Step.ex .. => true
  | _ => false

/-- Is the step a warm-up step? -/
def stepIsWarmup : Step → Bool
  | Step.warmup .. => true
  | _ => false

/-- Is the step a repeat step? -/
def stepIsRep : Step → Bool
  | Step.rep .. => true
  | _ => false

/-- The claim's invariant: every repeat points strictly back, at an
exercise or warm-up step. -/
def repeatInv (steps : List Step) : Prop :=
  ∀ i t c, steps[i]? = some (Step.rep t c) →
    t < i ∧ ∃ s, steps[t]? = some s ∧ (stepIsExercise s || stepIsWarmup s) = true

theorem repeatInv_nil : repeatInv [] := by
  intro i t c h
  simp at h

theorem targetOk_append {l l2 : List Step} {t : Nat} {s : Step}
    (h : l[t]? = some s) : (l ++ l2)[t]? = some s := by
  have ht : t < l.length := by
    by_contra hcon
    rw [List.getElem?_eq_none (by omega)] at h
    exact absurd h (by simp)
  rw [List.getElem?_append_left ht]
  exact h

theorem repeatInv_snoc_nonrep {l : List Step} {s : Step}
    (h : repeatInv l) (hs : stepIsRep s = false) : repeatInv (l ++ [s]) := by
  intro i t c hi
  by_cases hil : i < l.length
  · rw [List.getElem?_append_left hil] at hi
    obtain ⟨h1, s', h2, h3⟩ := h i t c hi
    exact ⟨h1, s', targetOk_append h2, h3⟩
  · have hlen : i < l.length + 1 := by
      by_contra hcon
      rw [List.getElem?_eq_none (by simp; omega)] at hi
      exact absurd hi (by simp)
    have hieq : i = l.length := by omega
    subst hieq
    rw [List.getElem?_concat_length] at hi
    simp only [Option.some.injEq] at hi
    rw [hi] at hs
    simp [stepIsRep] at hs

theorem repeatInv_append_nonrep {l l2 : List Step}
    (h : repeatInv l) (hs : ∀ s ∈ l2, stepIsRep s = false) : repeatInv (l ++ l2) := by
  induction l2 generalizing l with
  | nil => simpa using h
  | cons a rest ih =>
    have hsplit : l ++ a :: rest = (l ++ [a]) ++ rest := by simp
    rw [hsplit]
    apply ih
    · exact repeatInv_snoc_nonrep h (hs a (by simp))
    · intro s hsmem
      exact hs s (by simp [hsmem])

theorem repeatInv_snoc_rep {l : List Step} {t c : Nat} {s : Step}
    (h : repeatInv l) (hgt : l[t]? = some s)
    (hok : (stepIsExercise s || stepIsWarmup s) = true) :
    repeatInv (l ++ [Step.rep t c]) := by
  have ht : t < l.length := by
    by_contra hcon
    rw [List.getElem?_eq_none (by omega)] at hgt
    exact absurd hgt (by simp)
  intro i t' c' hi
  by_cases hil : i < l.length
  · rw [List.getElem?_append_left hil] at hi
    obtain ⟨h1, s', h2, h3⟩ := h i t' c' hi
    exact ⟨h1, s', targetOk_append h2, h3⟩
  · have hlen : i < l.length + 1 := by
      by_contra hcon
      rw [List.getElem?_eq_none (by simp; omega)] at hi
      exact absurd hi (by simp)
    have hieq : i = l.length := by omega
    subst hieq
    rw [List.getElem?_concat_length] at hi
    simp only [Option.some.injEq, Step.rep.injEq] at hi
    obtain ⟨hteq, _⟩ := hi
    subst hteq
    exact ⟨ht, s, targetOk_append hgt, hok⟩

theorem createRestStep_nonrep (d : Nat) (rt : String) :
    stepIsRep (createRestStep d rt) = false := by
  unfold createRestStep
  split <;> rfl

theorem interSetRest_nonrep (ert : String) (ers : Option Nat) (rbs : Nat) (rtb : String) :
    ∀ s ∈ interSetRest ert ers rbs rtb, stepIsRep s = false := by
  intro s hs
  unfold interSetRest at hs
  have hr := createRestStep_nonrep
  split at hs
  · simp only [List.mem_singleton] at hs
    rw [hs]; exact hr 0 "button"
  · split at hs
    · split at hs
      · simp only [List.mem_singleton] at hs
        rw [hs]; exact hr _ _
      · split at hs
        · simp only [List.mem_singleton] at hs
          rw [hs]; exact hr _ _
        · simp at hs
    · split at hs
      · simp only [List.mem_singleton] at hs
        rw [hs]; exact hr _ _
      · simp at hs

theorem createWarmupStep_nonrep (d : Option Nat) (a : Option String) :
    stepIsRep (createWarmupStep d a) = false := by
  unfold createWarmupStep
  rcases d with _ | d
  · rfl
  · simp only []
    split <;> rfl

theorem targetable_nonrep {s : Step}
    (h : (stepIsExercise s || stepIsWarmup s) = true) : stepIsRep s = false := by
  cases s <;> simp_all [stepIsExercise, stepIsWarmup, stepIsRep]

theorem repeatInv_optRest (ert rtb : String) (ers : Option Nat) (rbs : Nat)
    {l : List Step} (h : repeatInv l) :
    repeatInv (match ers with
      | some r => if r > 0 then l ++ [createRestStep r ert]
                  else if rbs > 0 then l ++ [createRestStep rbs rtb] else l
      | none => if rbs > 0 then l ++ [createRestStep rbs rtb] else l) := by
  cases ers with
  | none =>
    by_cases hb : rbs > 0
    · simp only [if_pos hb]
      exact repeatInv_snoc_nonrep h (createRestStep_nonrep _ _)
    · simp only [if_neg hb]
      exact h
  | some r =>
    by_cases hr : r > 0
    · simp only [if_pos hr]
      exact repeatInv_snoc_nonrep h (createRestStep_nonrep _ _)
    · by_cases hb : rbs > 0
      · simp only [if_neg hr, if_pos hb]
        exact repeatInv_snoc_nonrep h (createRestStep_nonrep _ _)
      · simp only [if_neg hr, if_neg hb]
        exact h

theorem warmupSetsBlock_repeatInv {warmEx : Step} {ws : Nat} {ert : String}
    {ers : Option Nat} {rbs : Nat} {rtb : String} {steps : List Step}
    (h : repeatInv steps) (hok : (stepIsExercise warmEx || stepIsWarmup warmEx) = true) :
    repeatInv (warmupSetsBlock warmEx ws ert ers rbs rtb steps) := by
  have h1 : repeatInv (steps ++ [warmEx]) :=
    repeatInv_snoc_nonrep h (targetable_nonrep hok)
  have hget1 : (steps ++ [warmEx])[steps.length]? = some warmEx :=
    List.getElem?_concat_length steps warmEx
  simp only [warmupSetsBlock]
  by_cases hws : ws > 1
  · simp only [if_pos hws]
    exact repeatInv_optRest _ _ _ _
      (repeatInv_snoc_rep
        (repeatInv_append_nonrep h1 (interSetRest_nonrep _ _ _ _))
        (targetOk_append hget1) hok)
  · simp only [if_neg hws]
    exact repeatInv_optRest _ _ _ _ h1

theorem workingSetsBlock_repeatInv {workEx : Step} {sets : Nat} {ert : String}
    {ers : Option Nat} {rbs : Nat} {rtb : String} {steps : List Step}
    (h : repeatInv steps) (hok : (stepIsExercise workEx || stepIsWarmup workEx) = true) :
    repeatInv (workingSetsBlock workEx sets ert ers rbs rtb steps) := by
  have h1 : repeatInv (steps ++ [workEx]) :=
    repeatInv_snoc_nonrep h (targetable_nonrep hok)
  have hget1 : (steps ++ [workEx])[steps.length]? = some workEx :=
    List.getElem?_concat_length steps workEx
  simp only [workingSetsBlock]
  by_cases hs2 : sets > 1
  · simp only [if_pos hs2]
    exact repeatInv_snoc_rep
      (repeatInv_append_nonrep h1 (interSetRest_nonrep _ _ _ _))
      (targetOk_append hget1) hok
  · simp only [if_neg hs2]
    exact h1

theorem tailRests_repeatInv (e : Exercise) (meta : ExMeta) (ilb ile : Bool)
    {steps : List Step} (h : repeatInv steps) :
    repeatInv (tailRests e meta ilb ile steps) := by
  simp only [tailRests]
  split <;> (try split) <;> (try split) <;> (try split) <;>
    first
      | exact h
      | exact repeatInv_snoc_nonrep h (createRestStep_nonrep _ _)
      | exact repeatInv_snoc_nonrep
          (repeatInv_snoc_nonrep h (createRestStep_nonrep _ _)) (createRestStep_nonrep _ _)

theorem compileExercisePure_repeatInv (lookup : String → LookupResult) (rtb : String)
    (rbs : Nat) (rounds : Nat) (ilb : Bool) (allEx : List (Exercise × ExMeta))
    (em : Exercise × ExMeta) (dtv : Nat × Int) (st : CompState)
    (h : repeatInv st.steps) :
    repeatInv (compileExercisePure lookup rtb rbs rounds ilb allEx em dtv st).steps := by
  simp only [compileExercisePure]
  refine tailRests_repeatInv _ _ _ _ ?_
  refine workingSetsBlock_repeatInv ?_ (by rfl)
  split
  · exact warmupSetsBlock_repeatInv h (by rfl)
  · exact h

theorem compileExercise_repeatInv (lookup : String → LookupResult) (useLap : Bool)
    (rtb : String) (rbs : Nat) (rounds : Nat) (ilb : Bool)
    (allEx : List (Exercise × ExMeta)) (em : Exercise × ExMeta)
    (st st' : CompState)
    (hc : compileExercise lookup useLap rtb rbs rounds ilb allEx em st = Except.ok st')
    (h : repeatInv st.steps) : repeatInv st'.steps := by
  unfold compileExercise at hc
  cases hd : (if useLap then Except.ok (5, (0 : Int)) else durationNonLap em.1) with
  | error e => rw [hd] at hc; simp [Except.map] at hc
  | ok dtv =>
    rw [hd] at hc
    simp only [Except.map, Except.ok.injEq] at hc
    rw [← hc]
    exact compileExercisePure_repeatInv lookup rtb rbs rounds ilb allEx em dtv st h

/-- Invariant preservation through `List.foldlM` over `Except`. -/
theorem foldlM_except_inv {α σ : Type} {P : σ → Prop} {f : σ → α → Except PyErr σ}
    (hf : ∀ s a s', f s a = Except.ok s' → P s → P s') :
    ∀ (l : List α) (s s' : σ), l.foldlM f s = Except.ok s' → P s → P s' := by
  intro l
  induction l with
  | nil =>
    intro s s' hr hp
    simp only [List.foldlM_nil, pure, Except.pure, Except.ok.injEq] at hr
    rw [← hr]
    exact hp
  | cons a rest ih =>
    intro s s' hr hp
    simp only [List.foldlM_cons] at hr
    cases hfa : f s a with
    | error e =>
      rw [hfa] at hr
      simp [bind, Except.bind] at hr
    | ok s1 =>
      rw [hfa] at hr
      simp only [bind, Except.bind] at hr
      exact ih s1 s' hr (hf s a s1 hfa hp)

theorem compileBlock_repeatInv (lookup : String → LookupResult) (useLap : Bool)
    (numBlocks bi : Nat) (b : Block) (st st' : CompState)
    (hc : compileBlock lookup useLap numBlocks bi b st = Except.ok st')
    (h : repeatInv st.steps) : repeatInv st'.steps := by
  unfold compileBlock at hc
  set st0 : CompState :=
    if b.warmup_enabled then
      CompState.mk (st.steps ++ [createWarmupStep b.warmup_duration_sec b.warmup_activity])
        st.cats
    else st with hst0
  have h0 : repeatInv st0.steps := by
    rw [hst0]
    split
    · exact repeatInv_snoc_nonrep h (createWarmupStep_nonrep _ _)
    · exact h
  simp only [bind, Except.bind] at hc
  cases hfold : (supersetExercises b ++ standaloneExercises b).foldlM
      (fun s em => compileExercise lookup useLap (b.rest_type.getD "timed")
        (restBetweenSets b) (parseStructure b.structureStr) (bi = numBlocks - 1)
        (supersetExercises b ++ standaloneExercises b) em s) st0 with
  | error e =>
    rw [hfold] at hc
    simp at hc
  | ok st1 =>
    rw [hfold] at hc
    simp only [pure, Except.pure, Except.ok.injEq] at hc
    have h1 : repeatInv st1.steps := by
      refine foldlM_except_inv (P := fun s => repeatInv s.steps) ?_ _ st0 st1 hfold h0
      intro s em s' hcs hps
      exact compileExercise_repeatInv _ _ _ _ _ _ _ _ _ _ hcs hps
    rw [← hc]
    cases hb : b.rest_between_rounds_sec with
    | none => exact h1
    | some r =>
      by_cases hcond : r ≠ 0 && !(bi = numBlocks - 1 : Bool)
      · simp only [hcond, if_true]
        exact repeatInv_snoc_nonrep h1 (createRestStep_nonrep _ _)
      · simp only [hcond, Bool.false_eq_true, if_false]
        exact h1

/-- C3.  For every blocks input, catalog lookup and lap-button flag, in
the compiled step list every repeat step's target index is strictly less
than the repeat's own index and the step at the target index is an
exercise or warm-up step (never a rest or repeat step). -/
theorem C3_repeat_targets (bj : BlocksJson) (lookup : String → LookupResult)
    (useLap : Bool) (steps : List Step) (cats : List Nat)
    (h : blocksToSteps bj lookup useLap = Except.ok (steps, cats)) :
    ∀ i t c, steps[i]? = some (Step.rep t c) →
      t < i ∧ ∃ s, steps[t]? = some s ∧ (stepIsExercise s || stepIsWarmup s) = true := by
  unfold blocksToSteps at h
  set init : CompState :=
    match bj.blocks.head? with
    | none => CompState.mk [createWarmupStep none none] []
    | some b0 =>
      if !b0.warmup_enabled then CompState.mk [createWarmupStep none none] []
      else CompState.mk [] [] with hinit
  have hsingle : repeatInv [createWarmupStep none none] := by
    have hrw : ([] : List Step) ++ [createWarmupStep none none] =
        [createWarmupStep none none] := by simp
    rw [← hrw]
    exact repeatInv_snoc_nonrep repeatInv_nil (createWarmupStep_nonrep _ _)
  have h0 : repeatInv init.steps := by
    rw [hinit]
    cases bj.blocks.head? with
    | none => exact hsingle
    | some b0 =>
      cases hw : b0.warmup_enabled with
      | false => simpa [hw] using hsingle
      | true => simpa [hw] using repeatInv_nil
  simp only [bind, Except.bind] at h
  cases hfold : bj.blocks.enum.foldlM
      (fun s p => compileBlock lookup useLap bj.blocks.length p.1 p.2 s) init with
  | error e =>
    rw [hfold] at h
    simp at h
  | ok fin =>
    rw [hfold] at h
    simp only [pure, Except.pure, Except.ok.injEq, Prod.mk.injEq] at h
    have hfin : repeatInv fin.steps := by
      refine foldlM_except_inv (P := fun s => repeatInv s.steps) ?_ _ init fin hfold h0
      intro s p s' hcs hps
      exact compileBlock_repeatInv _ _ _ _ _ _ _ hcs hps
    rw [← h.1]
    exact hfin

/-! ## List-extension facts: compilation only appends steps -/

theorem pfx1 {α : Type} (l t : List α) : l <+: l ++ t := List.prefix_append l t

theorem pfx_snoc {α : Type} {l l' : List α} (h : l <+: l') (t : List α) :
    l <+: l' ++ t := h.trans (List.prefix_append l' t)

theorem warmupSetsBlock_pfx (warmEx : Step) (ws : Nat) (ert : String)
    (ers : Option Nat) (rbs : Nat) (rtb : String) (steps : List Step) :
    steps <+: warmupSetsBlock warmEx ws ert ers rbs rtb steps := by
  simp only [warmupSetsBlock]
  split <;> split_ifs <;>
    first
      | exact List.prefix_rfl
      | exact pfx1 _ _
      | exact pfx_snoc (pfx1 _ _) _
      | exact pfx_snoc (pfx_snoc (pfx1 _ _) _) _
      | exact pfx_snoc (pfx_snoc (pfx_snoc (pfx1 _ _) _) _) _

theorem workingSetsBlock_pfx (workEx : Step) (sets : Nat) (ert : String)
    (ers : Option Nat) (rbs : Nat) (rtb : String) (steps : List Step) :
    steps <+: workingSetsBlock workEx sets ert ers rbs rtb steps := by
  simp only [workingSetsBlock]
  split_ifs <;>
    first
      | exact List.prefix_rfl
      | exact pfx1 _ _
      | exact pfx_snoc (pfx1 _ _) _
      | exact pfx_snoc (pfx_snoc (pfx1 _ _) _) _

theorem tailRests_pfx (e : Exercise) (meta : ExMeta) (ilb ile : Bool)
    (steps : List Step) : steps <+: tailRests e meta ilb ile steps := by
  simp only [tailRests]
  split <;> (try split) <;> (try split) <;> (try split) <;>
    first
      | exact List.prefix_rfl
      | exact pfx1 _ _
      | exact pfx_snoc (pfx1 _ _) _

theorem compileExercisePure_pfx (lookup : String → LookupResult) (rtb : String)
    (rbs : Nat) (rounds : Nat) (ilb : Bool) (allEx : List (Exercise × ExMeta))
    (em : Exercise × ExMeta) (dtv : Nat × Int) (st : CompState) :
    st.steps <+: (compileExercisePure lookup rtb rbs rounds ilb allEx em dtv st).steps := by
  simp only [compileExercisePure]
  refine List.IsPrefix.trans ?_ (List.IsPrefix.trans
    (workingSetsBlock_pfx _ _ _ _ _ _ _) (tailRests_pfx _ _ _ _ _))
  split
  · exact warmupSetsBlock_pfx _ _ _ _ _ _ _
  · exact List.prefix_rfl

theorem compileExercise_pfx (lookup : String → LookupResult) (useLap : Bool)
    (rtb : String) (rbs : Nat) (rounds : Nat) (ilb : Bool)
    (allEx : List (Exercise × ExMeta)) (em : Exercise × ExMeta) (st st' : CompState)
    (hc : compileExercise lookup useLap rtb rbs rounds ilb allEx em st = Except.ok st') :
    st.steps <+: st'.steps := by
  unfold compileExercise at hc
  cases hd : (if useLap then Except.ok (5, (0 : Int)) else durationNonLap em.1) with
  | error e => rw [hd] at hc; simp [Except.map] at hc
  | ok dtv =>
    rw [hd] at hc
    simp only [Except.map, Except.ok.injEq] at hc
    rw [← hc]
    exact compileExercisePure_pfx lookup rtb rbs rounds ilb allEx em dtv st

theorem compileBlock_pfx (lookup : String → LookupResult) (useLap : Bool)
    (numBlocks bi : Nat) (b : Block) (st st' : CompState)
    (hc : compileBlock lookup useLap numBlocks bi b st = Except.ok st') :
    st.steps <+: st'.steps := by
  unfold compileBlock at hc
  set st0 : CompState :=
    if b.warmup_enabled then
      CompState.mk (st.steps ++ [createWarmupStep b.warmup_duration_sec b.warmup_activity])
        st.cats
    else st with hst0
  have h0 : st.steps <+: st0.steps := by
    rw [hst0]
    split
    · exact pfx1 _ _
    · exact List.prefix_rfl
  simp only [bind, Except.bind] at hc
  cases hfold : (supersetExercises b ++ standaloneExercises b).foldlM
      (fun s em => compileExercise lookup useLap (b.rest_type.getD "timed")
        (restBetweenSets b) (parseStructure b.structureStr) (bi = numBlocks - 1)
        (supersetExercises b ++ standaloneExercises b) em s) st0 with
  | error e => rw [hfold] at hc; simp at hc
  | ok st1 =>
    rw [hfold] at hc
    simp only [pure, Except.pure, Except.ok.injEq] at hc
    have h1 : st.steps <+: st1.steps := by
      refine foldlM_except_inv (P := fun s => st.steps <+: s.steps) ?_ _ st0 st1 hfold h0
      intro s em s' hcs hps
      exact hps.trans (compileExercise_pfx _ _ _ _ _ _ _ _ _ _ hcs)
    rw [← hc]
    cases hb : b.rest_between_rounds_sec with
    | none => exact h1
    | some r =>
      by_cases hcond : r ≠ 0 && !(bi = numBlocks - 1 : Bool)
      · simp only [hcond, if_true]
        exact pfx_snoc h1 _
      · simp only [hcond, Bool.false_eq_true, if_false]
        exact h1

theorem head?_of_pfx {l l' : List Step} {w : Step}
    (h : l <+: l') (hw : l.head? = some w) : l'.head? = some w := by
  obtain ⟨t, rfl⟩ := h
  cases l with
  | nil => simp at hw
  | cons a rest => simpa using hw

/-- C10.  For every blocks input the compiled step list is non-empty,
and whenever the first block does not declare a warm-up (also when the
blocks list is empty), the head of the list is the default lap-button
warm-up step - so the `if not steps: raise ValueError("No exercises
found")` branch of `to_fit` is unreachable for any blocks input that
compiles. -/
theorem C10_steps_nonempty (bj : BlocksJson) (lookup : String → LookupResult)
    (useLap : Bool) (steps : List Step) (cats : List Nat)
    (h : blocksToSteps bj lookup useLap = Except.ok (steps, cats)) :
    0 < steps.length ∧
      ((match bj.blocks.head? with
        | none => True
        | some b0 => b0.warmup_enabled = false) →
        steps.head? = some (createWarmupStep none none)) := by
  unfold blocksToSteps at h
  set init : CompState :=
    match bj.blocks.head? with
    | none => CompState.mk [createWarmupStep none none] []
    | some b0 =>
      if !b0.warmup_enabled then CompState.mk [createWarmupStep none none] []
      else CompState.mk [] [] with hinit
  simp only [bind, Except.bind] at h
  cases hfold : bj.blocks.enum.foldlM
      (fun s p => compileBlock lookup useLap bj.blocks.length p.1 p.2 s) init with
  | error e => rw [hfold] at h; simp at h
  | ok fin =>
    rw [hfold] at h
    simp only [pure, Except.pure, Except.ok.injEq, Prod.mk.injEq] at h
    have hpre : init.steps <+: fin.steps := by
      refine foldlM_except_inv (P := fun s => init.steps <+: s.steps) ?_ _ init fin
        hfold List.prefix_rfl
      intro s p s' hcs hps
      exact hps.trans (compileBlock_pfx _ _ _ _ _ _ _ hcs)
    constructor
    · -- non-emptiness
      rw [← h.1]
      cases hh : bj.blocks.head? with
      | none =>
        have : init.steps = [createWarmupStep none none] := by rw [hinit, hh]
        have hlen := hpre.length_le
        rw [this] at hlen
        simp only [List.length_cons, List.length_nil] at hlen
        omega
      | some b0 =>
        cases hw : b0.warmup_enabled with
        | false =>
          have : init.steps = [createWarmupStep none none] := by
            rw [hinit, hh]
            simp [hw]
          have hlen := hpre.length_le
          rw [this] at hlen
          simp only [List.length_cons, List.length_nil] at hlen
          omega
        | true =>
          -- the first block itself prepends its declared warm-up step
          obtain ⟨bs, hbs⟩ : ∃ bs, bj.blocks = b0 :: bs := by
            cases hbj : bj.blocks with
            | nil => rw [hbj] at hh; simp at hh
            | cons x xs =>
              rw [hbj] at hh
              simp only [List.head?_cons, Option.some.injEq] at hh
              exact ⟨xs, by rw [hh]⟩
          rw [hbs] at hfold
          rw [List.enum_cons] at hfold
          rw [List.foldlM_cons] at hfold
          simp only [bind, Except.bind] at hfold
          cases hc0 : compileBlock lookup useLap (b0 :: bs).length 0 b0 init with
          | error e => rw [hc0] at hfold; simp at hfold
          | ok st1 =>
            rw [hc0] at hfold
            -- inside compileBlock the warm-up step is appended first
            have hne : 0 < st1.steps.length := by
              unfold compileBlock at hc0
              simp only [bind, Except.bind] at hc0
              set st0 : CompState :=
                if b0.warmup_enabled then
                  CompState.mk (init.steps ++
                    [createWarmupStep b0.warmup_duration_sec b0.warmup_activity])
                    init.cats
                else init with hst0
              have h0len : 0 < st0.steps.length := by
                rw [hst0, if_pos hw]
                simp
              cases hfold0 : (supersetExercises b0 ++ standaloneExercises b0).foldlM
                  (fun s em => compileExercise lookup useLap (b0.rest_type.getD "timed")
                    (restBetweenSets b0) (parseStructure b0.structureStr)
                    (0 = (b0 :: bs).length - 1)
                    (supersetExercises b0 ++ standaloneExercises b0) em s) st0 with
              | error e => rw [hfold0] at hc0; simp at hc0
              | ok stm =>
                rw [hfold0] at hc0
                simp only [pure, Except.pure, Except.ok.injEq] at hc0
                have hm : st0.steps <+: stm.steps := by
                  refine foldlM_except_inv (P := fun s => st0.steps <+: s.steps) ?_ _
                    st0 stm hfold0 List.prefix_rfl
                  intro s em s' hcs hps
                  exact hps.trans (compileExercise_pfx _ _ _ _ _ _ _ _ _ _ hcs)
                have hmlen := hm.length_le
                rw [← hc0]
                cases hb : b0.rest_between_rounds_sec with
                | none =>
                  simp only [hb]
                  omega
                | some r =>
                  simp only [hb]
                  by_cases hcond : r ≠ 0 && !(0 = (b0 :: bs).length - 1 : Bool)
                  · simp only [hcond, if_true]
                    simp only [List.length_append, List.length_cons, List.length_nil]
                    omega
                  · simp only [hcond, Bool.false_eq_true, if_false]
                    omega
            have hrest : st1.steps <+: fin.steps := by
              refine foldlM_except_inv (P := fun s => st1.steps <+: s.steps) ?_ _
                st1 fin hfold List.prefix_rfl
              intro s p s' hcs hps
              exact hps.trans (compileBlock_pfx _ _ _ _ _ _ _ hcs)
            have := hrest.length_le
            omega
    · -- the default warm-up head
      intro hcond
      rw [← h.1]
      refine head?_of_pfx hpre ?_
      cases hh : bj.blocks.head? with
      | none =>
        have : init.steps = [createWarmupStep none none] := by rw [hinit, hh]
        rw [this]
        rfl
      | some b0 =>
        rw [hh] at hcond
        have : init.steps = [createWarmupStep none none] := by
          rw [hinit, hh]
          simp [hcond]
        rw [this]
        rfl

/-! ## C4: no exercise step carries a category above 32 -/

/-- Exercise and warm-up steps carry a device-safe category; rest and
repeat steps carry none. -/
def stepCatOk : Step → Bool
  | Step.ex _ cat _ _ _ _ => cat ≤ 32
  | Step.warmup _ _ _ _ cat _ => cat ≤ 32
  | _ => true

theorem invalidCategoryFallback_le {c v : Nat}
    (h : invalidCategoryFallback c = some v) : v ≤ 32 := by
  unfold invalidCategoryFallback at h
  split at h <;> simp_all <;> omega

theorem validateCategoryId_le (c : Nat) : validateCategoryId c ≤ 32 := by
  unfold validateCategoryId maxValidCategoryId
  split
  · omega
  · cases hf : invalidCategoryFallback c with
    | none => simp
    | some v => simpa using invalidCategoryFallback_le hf

/-- All steps of a list carry device-safe categories. -/
def catsOk (l : List Step) : Prop := ∀ s ∈ l, stepCatOk s = true

theorem catsOk_append {l l2 : List Step} (h : catsOk l) (h2 : catsOk l2) :
    catsOk (l ++ l2) := by
  intro s hs
  rcases List.mem_append.mp hs with hs | hs
  · exact h s hs
  · exact h2 s hs

theorem catsOk_singleton {s : Step} (h : stepCatOk s = true) : catsOk [s] := by
  intro x hx
  simp only [List.mem_singleton] at hx
  rw [hx]
  exact h

theorem createRestStep_catOk (d : Nat) (rt : String) :
    stepCatOk (createRestStep d rt) = true := by
  unfold createRestStep
  split <;> rfl

theorem createWarmupStep_catOk (d : Option Nat) (a : Option String) :
    stepCatOk (createWarmupStep d a) = true := by
  unfold createWarmupStep
  rcases d with _ | d
  · rfl
  · simp only []
    split <;> rfl

theorem interSetRest_catsOk (ert : String) (ers : Option Nat) (rbs : Nat) (rtb : String) :
    catsOk (interSetRest ert ers rbs rtb) := by
  intro s hs
  unfold interSetRest at hs
  split at hs
  · simp only [List.mem_singleton] at hs
    rw [hs]; exact createRestStep_catOk _ _
  · split at hs
    · split at hs
      · simp only [List.mem_singleton] at hs
        rw [hs]; exact createRestStep_catOk _ _
      · split at hs
        · simp only [List.mem_singleton] at hs
          rw [hs]; exact createRestStep_catOk _ _
        · simp at hs
    · split at hs
      · simp only [List.mem_singleton] at hs
        rw [hs]; exact createRestStep_catOk _ _
      · simp at hs

theorem catsOk_optRest (ert rtb : String) (ers : Option Nat) (rbs : Nat)
    {l : List Step} (h : catsOk l) :
    catsOk (match ers with
      | some r => if r > 0 then l ++ [createRestStep r ert]
                  else if rbs > 0 then l ++ [createRestStep rbs rtb] else l
      | none => if rbs > 0 then l ++ [createRestStep rbs rtb] else l) := by
  cases ers with
  | none =>
    by_cases hb : rbs > 0
    · simp only [if_pos hb]
      exact catsOk_append h (catsOk_singleton (createRestStep_catOk _ _))
    · simp only [if_neg hb]
      exact h
  | some r =>
    by_cases hr : r > 0
    · simp only [if_pos hr]
      exact catsOk_append h (catsOk_singleton (createRestStep_catOk _ _))
    · by_cases hb : rbs > 0
      · simp only [if_neg hr, if_pos hb]
        exact catsOk_append h (catsOk_singleton (createRestStep_catOk _ _))
      · simp only [if_neg hr, if_neg hb]
        exact h

theorem warmupSetsBlock_catsOk {warmEx : Step} {ws : Nat} {ert : String}
    {ers : Option Nat} {rbs : Nat} {rtb : String} {steps : List Step}
    (h : catsOk steps) (hw : stepCatOk warmEx = true) :
    catsOk (warmupSetsBlock warmEx ws ert ers rbs rtb steps) := by
  have h1 : catsOk (steps ++ [warmEx]) := catsOk_append h (catsOk_singleton hw)
  simp only [warmupSetsBlock]
  by_cases hws : ws > 1
  · simp only [if_pos hws]
    refine catsOk_optRest _ _ _ _ (catsOk_append ?_ ?_)
    · exact catsOk_append h1 (interSetRest_catsOk _ _ _ _)
    · exact catsOk_singleton rfl
  · simp only [if_neg hws]
    exact catsOk_optRest _ _ _ _ h1

theorem workingSetsBlock_catsOk {workEx : Step} {sets : Nat} {ert : String}
    {ers : Option Nat} {rbs : Nat} {rtb : String} {steps : List Step}
    (h : catsOk steps) (hw : stepCatOk workEx = true) :
    catsOk (workingSetsBlock workEx sets ert ers rbs rtb steps) := by
  have h1 : catsOk (steps ++ [workEx]) := catsOk_append h (catsOk_singleton hw)
  simp only [workingSetsBlock]
  by_cases hs2 : sets > 1
  · simp only [if_pos hs2]
    refine catsOk_append (catsOk_append h1 (interSetRest_catsOk _ _ _ _)) ?_
    exact catsOk_singleton rfl
  · simp only [if_neg hs2]
    exact h1

theorem tailRests_catsOk (e : Exercise) (meta : ExMeta) (ilb ile : Bool)
    {steps : List Step} (h : catsOk steps) :
    catsOk (tailRests e meta ilb ile steps) := by
  simp only [tailRests]
  split <;> (try split) <;> (try split) <;> (try split) <;>
    first
      | exact h
      | exact catsOk_append h (catsOk_singleton (createRestStep_catOk _ _))
      | exact catsOk_append
          (catsOk_append h (catsOk_singleton (createRestStep_catOk _ _)))
          (catsOk_singleton (createRestStep_catOk _ _))

theorem compileExercisePure_catsOk (lookup : String → LookupResult) (rtb : String)
    (rbs : Nat) (rounds : Nat) (ilb : Bool) (allEx : List (Exercise × ExMeta))
    (em : Exercise × ExMeta) (dtv : Nat × Int) (st : CompState)
    (h : catsOk st.steps) :
    catsOk (compileExercisePure lookup rtb rbs rounds ilb allEx em dtv st).steps := by
  simp only [compileExercisePure]
  refine tailRests_catsOk _ _ _ _ ?_
  refine workingSetsBlock_catsOk ?_ (by
    simp only [stepCatOk]
    exact decide_eq_true (validateCategoryId_le _))
  split
  · exact warmupSetsBlock_catsOk h (by
      simp only [stepCatOk]
      exact decide_eq_true (validateCategoryId_le _))
  · exact h

theorem compileExercise_catsOk (lookup : String → LookupResult) (useLap : Bool)
    (rtb : String) (rbs : Nat) (rounds : Nat) (ilb : Bool)
    (allEx : List (Exercise × ExMeta)) (em : Exercise × ExMeta) (st st' : CompState)
    (hc : compileExercise lookup useLap rtb rbs rounds ilb allEx em st = Except.ok st')
    (h : catsOk st.steps) : catsOk st'.steps := by
  unfold compileExercise at hc
  cases hd : (if useLap then Except.ok (5, (0 : Int)) else durationNonLap em.1) with
  | error e => rw [hd] at hc; simp [Except.map] at hc
  | ok dtv =>
    rw [hd] at hc
    simp only [Except.map, Except.ok.injEq] at hc
    rw [← hc]
    exact compileExercisePure_catsOk lookup rtb rbs rounds ilb allEx em dtv st h

theorem compileBlock_catsOk (lookup : String → LookupResult) (useLap : Bool)
    (numBlocks bi : Nat) (b : Block) (st st' : CompState)
    (hc : compileBlock lookup useLap numBlocks bi b st = Except.ok st')
    (h : catsOk st.steps) : catsOk st'.steps := by
  unfold compileBlock at hc
  set st0 : CompState :=
    if b.warmup_enabled then
      CompState.mk (st.steps ++ [createWarmupStep b.warmup_duration_sec b.warmup_activity])
        st.cats
    else st with hst0
  have h0 : catsOk st0.steps := by
    rw [hst0]
    split
    · exact catsOk_append h (catsOk_singleton (createWarmupStep_catOk _ _))
    · exact h
  simp only [bind, Except.bind] at hc
  cases hfold : (supersetExercises b ++ standaloneExercises b).foldlM
      (fun s em => compileExercise lookup useLap (b.rest_type.getD "timed")
        (restBetweenSets b) (parseStructure b.structureStr) (bi = numBlocks - 1)
        (supersetExercises b ++ standaloneExercises b) em s) st0 with
  | error e => rw [hfold] at hc; simp at hc
  | ok st1 =>
    rw [hfold] at hc
    simp only [pure, Except.pure, Except.ok.injEq] at hc
    have h1 : catsOk st1.steps := by
      refine foldlM_except_inv (P := fun s => catsOk s.steps) ?_ _ st0 st1 hfold h0
      intro s em s' hcs hps
      exact compileExercise_catsOk _ _ _ _ _ _ _ _ _ _ hcs hps
    rw [← hc]
    cases hb : b.rest_between_rounds_sec with
    | none => exact h1
    | some r =>
      by_cases hcond : r ≠ 0 && !(bi = numBlocks - 1 : Bool)
      · simp only [hcond, if_true]
        exact catsOk_append h1 (catsOk_singleton (createRestStep_catOk _ _))
      · simp only [hcond, Bool.false_eq_true, if_false]
        exact h1

/-- C4.  The compatibility remap: `validate_category_id` maps 38 to 2
(Cardio), every other id above 32 to 29 (Total Body), and is the
identity below 33; consequently no exercise (or warm-up) step produced
by the step compiler, for any input and any catalog data, carries a
`category_id` above 32. -/
theorem C4_category_remap :
    (validateCategoryId 38 = 2) ∧
    (∀ c : Nat, 32 < c → c ≠ 38 → validateCategoryId c = 29) ∧
    (∀ c : Nat, c ≤ 32 → validateCategoryId c = c) ∧
    (∀ (bj : BlocksJson) (lookup : String → LookupResult) (useLap : Bool)
        (steps : List Step) (cats : List Nat),
      blocksToSteps bj lookup useLap = Except.ok (steps, cats) →
      ∀ s ∈ steps, stepCatOk s = true) := by
  refine ⟨by decide, ?_, ?_, ?_⟩
  · intro c hgt hne
    unfold validateCategoryId maxValidCategoryId
    rw [if_neg (by omega)]
    by_cases hle : c ≤ 43
    · interval_cases c <;> first | rfl | exact absurd rfl hne
    · have hf : invalidCategoryFallback c = none := by
        unfold invalidCategoryFallback
        split <;> first | omega | rfl
      rw [hf]
  · intro c hle
    unfold validateCategoryId maxValidCategoryId
    rw [if_pos hle]
  · intro bj lookup useLap steps cats h
    unfold blocksToSteps at h
    set init : CompState :=
      match bj.blocks.head? with
      | none => CompState.mk [createWarmupStep none none] []
      | some b0 =>
        if !b0.warmup_enabled then CompState.mk [createWarmupStep none none] []
        else CompState.mk [] [] with hinit
    have h0 : catsOk init.steps := by
      rw [hinit]
      cases bj.blocks.head? with
      | none => exact catsOk_singleton (createWarmupStep_catOk _ _)
      | some b0 =>
        cases hw : b0.warmup_enabled with
        | false => simpa [hw] using catsOk_singleton (createWarmupStep_catOk none none)
        | true =>
          simp only [hw, Bool.not_true, Bool.false_eq_true, if_false]
          intro s hs
          simp at hs
    simp only [bind, Except.bind] at h
    cases hfold : bj.blocks.enum.foldlM
        (fun s p => compileBlock lookup useLap bj.blocks.length p.1 p.2 s) init with
    | error e => rw [hfold] at h; simp at h
    | ok fin =>
      rw [hfold] at h
      simp only [pure, Except.pure, Except.ok.injEq, Prod.mk.injEq] at h
      have hfin : catsOk fin.steps := by
        refine foldlM_except_inv (P := fun s => catsOk s.steps) ?_ _ init fin hfold h0
        intro s p s' hcs hps
        exact compileBlock_catsOk _ _ _ _ _ _ _ hcs hps
      rw [← h.1]
      exact hfin

/-! ## C5: lap-button mode -/

/-- A step satisfies lap-button form when, if it is an exercise step of
active intensity (a working step), its duration is OPEN(5)/0.  Warm-up
set exercise steps carry intensity 1 and are not constrained. -/
def lapOk : Step → Bool
  | Step.ex _ _ 0 dt dv _ => (dt == 5) && (dv == 0)
  | _ => true

/-- The repeat view of a step: target and count for repeat steps, `none`
otherwise. -/
def stepView : Step → Option (Nat × Nat)
  | Step.rep t c => some (t, c)
  | _ => none

/-- All steps of a list are in lap-button form. -/
def lapAll (l : List Step) : Prop := ∀ s ∈ l, lapOk s = true

theorem lapAll_append {l l2 : List Step} (h : lapAll l) (h2 : lapAll l2) :
    lapAll (l ++ l2) := by
  intro s hs
  rcases List.mem_append.mp hs with hs | hs
  · exact h s hs
  · exact h2 s hs

theorem lapAll_singleton {s : Step} (h : lapOk s = true) : lapAll [s] := by
  intro x hx
  simp only [List.mem_singleton] at hx
  rw [hx]
  exact h

theorem createRestStep_lapOk (d : Nat) (rt : String) :
    lapOk (createRestStep d rt) = true := by
  unfold createRestStep
  split <;> rfl

theorem createWarmupStep_lapOk (d : Option Nat) (a : Option String) :
    lapOk (createWarmupStep d a) = true := by
  unfold createWarmupStep
  rcases d with _ | d
  · rfl
  · simp only []
    split <;> rfl

theorem interSetRest_lapAll (ert : String) (ers : Option Nat) (rbs : Nat) (rtb : String) :
    lapAll (interSetRest ert ers rbs rtb) := by
  intro s hs
  unfold interSetRest at hs
  split at hs
  · simp only [List.mem_singleton] at hs
    rw [hs]; exact createRestStep_lapOk _ _
  · split at hs
    · split at hs
      · simp only [List.mem_singleton] at hs
        rw [hs]; exact createRestStep_lapOk _ _
      · split at hs
        · simp only [List.mem_singleton] at hs
          rw [hs]; exact createRestStep_lapOk _ _
        · simp at hs
    · split at hs
      · simp only [List.mem_singleton] at hs
        rw [hs]; exact createRestStep_lapOk _ _
      · simp at hs

theorem lapAll_optRest (ert rtb : String) (ers : Option Nat) (rbs : Nat)
    {l : List Step} (h : lapAll l) :
    lapAll (match ers with
      | some r => if r > 0 then l ++ [createRestStep r ert]
                  else if rbs > 0 then l ++ [createRestStep rbs rtb] else l
      | none => if rbs > 0 then l ++ [createRestStep rbs rtb] else l) := by
  cases ers with
  | none =>
    by_cases hb : rbs > 0
    · simp only [if_pos hb]
      exact lapAll_append h (lapAll_singleton (createRestStep_lapOk _ _))
    · simp only [if_neg hb]
      exact h
  | some r =>
    by_cases hr : r > 0
    · simp only [if_pos hr]
      exact lapAll_append h (lapAll_singleton (createRestStep_lapOk _ _))
    · by_cases hb : rbs > 0
      · simp only [if_neg hr, if_pos hb]
        exact lapAll_append h (lapAll_singleton (createRestStep_lapOk _ _))
      · simp only [if_neg hr, if_neg hb]
        exact h

theorem warmupSetsBlock_lapAll {warmEx : Step} {ws : Nat} {ert : String}
    {ers : Option Nat} {rbs : Nat} {rtb : String} {steps : List Step}
    (h : lapAll steps) (hw : lapOk warmEx = true) :
    lapAll (warmupSetsBlock warmEx ws ert ers rbs rtb steps) := by
  have h1 : lapAll (steps ++ [warmEx]) := lapAll_append h (lapAll_singleton hw)
  simp only [warmupSetsBlock]
  by_cases hws : ws > 1
  · simp only [if_pos hws]
    refine lapAll_optRest _ _ _ _ (lapAll_append ?_ ?_)
    · exact lapAll_append h1 (interSetRest_lapAll _ _ _ _)
    · exact lapAll_singleton rfl
  · simp only [if_neg hws]
    exact lapAll_optRest _ _ _ _ h1

theorem workingSetsBlock_lapAll {workEx : Step} {sets : Nat} {ert : String}
    {ers : Option Nat} {rbs : Nat} {rtb : String} {steps : List Step}
    (h : lapAll steps) (hw : lapOk workEx = true) :
    lapAll (workingSetsBlock workEx sets ert ers rbs rtb steps) := by
  have h1 : lapAll (steps ++ [workEx]) := lapAll_append h (lapAll_singleton hw)
  simp only [workingSetsBlock]
  by_cases hs2 : sets > 1
  · simp only [if_pos hs2]
    refine lapAll_append (lapAll_append h1 (interSetRest_lapAll _ _ _ _)) ?_
    exact lapAll_singleton rfl
  · simp only [if_neg hs2]
    exact h1

theorem tailRests_lapAll (e : Exercise) (meta : ExMeta) (ilb ile : Bool)
    {steps : List Step} (h : lapAll steps) :
    lapAll (tailRests e meta ilb ile steps) := by
  simp only [tailRests]
  split <;> (try split) <;> (try split) <;> (try split) <;>
    first
      | exact h
      | exact lapAll_append h (lapAll_singleton (createRestStep_lapOk _ _))
      | exact lapAll_append
          (lapAll_append h (lapAll_singleton (createRestStep_lapOk _ _)))
          (lapAll_singleton (createRestStep_lapOk _ _))

theorem compileExercisePure_lapAll (lookup : String → LookupResult) (rtb : String)
    (rbs : Nat) (rounds : Nat) (ilb : Bool) (allEx : List (Exercise × ExMeta))
    (em : Exercise × ExMeta) (st : CompState) (h : lapAll st.steps) :
    lapAll (compileExercisePure lookup rtb rbs rounds ilb allEx em (5, 0) st).steps := by
  simp only [compileExercisePure]
  refine tailRests_lapAll _ _ _ _ ?_
  refine workingSetsBlock_lapAll ?_ (by rfl)
  split
  · exact warmupSetsBlock_lapAll h (by rfl)
  · exact h

theorem compileExercise_lapAll (lookup : String → LookupResult) (rtb : String)
    (rbs : Nat) (rounds : Nat) (ilb : Bool) (allEx : List (Exercise × ExMeta))
    (em : Exercise × ExMeta) (st st' : CompState)
    (hc : compileExercise lookup true rtb rbs rounds ilb allEx em st = Except.ok st')
    (h : lapAll st.steps) : lapAll st'.steps := by
  have hc' : Except.ok (compileExercisePure lookup rtb rbs rounds ilb allEx em (5, 0) st)
      = Except.ok st' := hc
  rw [← Except.ok.inj hc']
  exact compileExercisePure_lapAll lookup rtb rbs rounds ilb allEx em st h

theorem compileBlock_lapAll (lookup : String → LookupResult) (numBlocks bi : Nat)
    (b : Block) (st st' : CompState)
    (hc : compileBlock lookup true numBlocks bi b st = Except.ok st')
    (h : lapAll st.steps) : lapAll st'.steps := by
  unfold compileBlock at hc
  set st0 : CompState :=
    if b.warmup_enabled then
      CompState.mk (st.steps ++ [createWarmupStep b.warmup_duration_sec b.warmup_activity])
        st.cats
    else st with hst0
  have h0 : lapAll st0.steps := by
    rw [hst0]
    split
    · exact lapAll_append h (lapAll_singleton (createWarmupStep_lapOk _ _))
    · exact h
  simp only [bind, Except.bind] at hc
  cases hfold : (supersetExercises b ++ standaloneExercises b).foldlM
      (fun s em => compileExercise lookup true (b.rest_type.getD "timed")
        (restBetweenSets b) (parseStructure b.structureStr) (bi = numBlocks - 1)
        (supersetExercises b ++ standaloneExercises b) em s) st0 with
  | error e => rw [hfold] at hc; simp at hc
  | ok st1 =>
    rw [hfold] at hc
    simp only [pure, Except.pure, Except.ok.injEq] at hc
    have h1 : lapAll st1.steps := by
      refine foldlM_except_inv (P := fun s => lapAll s.steps) ?_ _ st0 st1 hfold h0
      intro s em s' hcs hps
      exact compileExercise_lapAll _ _ _ _ _ _ _ _ _ hcs hps
    rw [← hc]
    cases hb : b.rest_between_rounds_sec with
    | none => exact h1
    | some r =>
      by_cases hcond : r ≠ 0 && !(bi = numBlocks - 1 : Bool)
      · simp only [hcond, if_true]
        exact lapAll_append h1 (lapAll_singleton (createRestStep_lapOk _ _))
      · simp only [hcond, Bool.false_eq_true, if_false]
        exact h1

/-! Lockstep between the lap and non-lap compilations: only the working
steps' duration fields differ, so the repeat views agree pointwise. -/

theorem map_view_length {l1 l2 : List Step}
    (h : l1.map stepView = l2.map stepView) : l1.length = l2.length := by
  have hh := congrArg List.length h
  simpa using hh

theorem optRest_view (ert rtb : String) (ers : Option Nat) (rbs : Nat)
    {l1 l2 : List Step} (hv : l1.map stepView = l2.map stepView) :
    (match ers with
      | some r => if r > 0 then l1 ++ [createRestStep r ert]
                  else if rbs > 0 then l1 ++ [createRestStep rbs rtb] else l1
      | none => if rbs > 0 then l1 ++ [createRestStep rbs rtb] else l1).map stepView =
    (match ers with
      | some r => if r > 0 then l2 ++ [createRestStep r ert]
                  else if rbs > 0 then l2 ++ [createRestStep rbs rtb] else l2
      | none => if rbs > 0 then l2 ++ [createRestStep rbs rtb] else l2).map stepView := by
  cases ers with
  | none =>
    by_cases hb : rbs > 0
    · simp only [if_pos hb, List.map_append, hv]
    · simp only [if_neg hb, hv]
  | some r =>
    by_cases hr : r > 0
    · simp only [if_pos hr, List.map_append, hv]
    · by_cases hb : rbs > 0
      · simp only [if_neg hr, if_pos hb, List.map_append, hv]
      · simp only [if_neg hr, if_neg hb, hv]

theorem warmupSetsBlock_view (warmEx : Step) (ws : Nat) (ert : String)
    (ers : Option Nat) (rbs : Nat) (rtb : String) {l1 l2 : List Step}
    (hv : l1.map stepView = l2.map stepView) :
    (warmupSetsBlock warmEx ws ert ers rbs rtb l1).map stepView =
    (warmupSetsBlock warmEx ws ert ers rbs rtb l2).map stepView := by
  have hlen := map_view_length hv
  simp only [warmupSetsBlock]
  by_cases hws : ws > 1
  · simp only [if_pos hws]
    apply optRest_view
    simp only [List.map_append, hv, hlen]
  · simp only [if_neg hws]
    apply optRest_view
    simp only [List.map_append, hv]

theorem workingSetsBlock_view (workEx1 workEx2 : Step) (sets : Nat) (ert : String)
    (ers : Option Nat) (rbs : Nat) (rtb : String) {l1 l2 : List Step}
    (hv : l1.map stepView = l2.map stepView)
    (h1 : stepView workEx1 = none) (h2 : stepView workEx2 = none) :
    (workingSetsBlock workEx1 sets ert ers rbs rtb l1).map stepView =
    (workingSetsBlock workEx2 sets ert ers rbs rtb l2).map stepView := by
  have hlen := map_view_length hv
  simp only [workingSetsBlock]
  by_cases hs2 : sets > 1
  · simp only [if_pos hs2, List.map_append, hv, hlen, List.map_cons, List.map_nil,
      h1, h2]
  · simp only [if_neg hs2, List.map_append, hv, List.map_cons, List.map_nil, h1, h2]

theorem tailRests_append (e : Exercise) (meta : ExMeta) (ilb ile : Bool)
    (steps : List Step) :
    tailRests e meta ilb ile steps = steps ++ tailRests e meta ilb ile [] := by
  simp only [tailRests]
  split <;> (try split) <;> (try split) <;> (try split) <;> simp

theorem tailRests_view (e : Exercise) (meta : ExMeta) (ilb ile : Bool)
    {l1 l2 : List Step} (hv : l1.map stepView = l2.map stepView) :
    (tailRests e meta ilb ile l1).map stepView =
    (tailRests e meta ilb ile l2).map stepView := by
  rw [tailRests_append e meta ilb ile l1, tailRests_append e meta ilb ile l2]
  simp only [List.map_append, hv]

theorem compileExercisePure_view (lookup : String → LookupResult) (rtb : String)
    (rbs : Nat) (rounds : Nat) (ilb : Bool) (allEx : List (Exercise × ExMeta))
    (em : Exercise × ExMeta) (dtv1 dtv2 : Nat × Int) {st1 st2 : CompState}
    (hv : st1.steps.map stepView = st2.steps.map stepView) :
    (compileExercisePure lookup rtb rbs rounds ilb allEx em dtv1 st1).steps.map stepView =
    (compileExercisePure lookup rtb rbs rounds ilb allEx em dtv2 st2).steps.map stepView := by
  simp only [compileExercisePure]
  apply tailRests_view
  refine workingSetsBlock_view _ _ _ _ _ _ _ ?_ rfl rfl
  cases hw : warmupCond em.1 with
  | true =>
    simp only [hw, if_true]
    exact warmupSetsBlock_view _ _ _ _ _ _ hv
  | false =>
    simp only [hw, Bool.false_eq_true, if_false]
    exact hv

/-- Pairwise invariant preservation through `List.foldlM` over `Except`. -/
theorem foldlM_except_rel {α σ : Type} {R : σ → σ → Prop}
    {f g : σ → α → Except PyErr σ}
    (hfg : ∀ s1 s2 a s1' s2', R s1 s2 → f s1 a = Except.ok s1' →
      g s2 a = Except.ok s2' → R s1' s2') :
    ∀ (l : List α) (s1 s2 t1 t2 : σ), R s1 s2 → l.foldlM f s1 = Except.ok t1 →
      l.foldlM g s2 = Except.ok t2 → R t1 t2 := by
  intro l
  induction l with
  | nil =>
    intro s1 s2 t1 t2 hr h1 h2
    simp only [List.foldlM_nil, pure, Except.pure, Except.ok.injEq] at h1 h2
    rw [← h1, ← h2]
    exact hr
  | cons a rest ih =>
    intro s1 s2 t1 t2 hr h1 h2
    simp only [List.foldlM_cons] at h1 h2
    cases hf1 : f s1 a with
    | error e => rw [hf1] at h1; simp [bind, Except.bind] at h1
    | ok s1' =>
      cases hf2 : g s2 a with
      | error e => rw [hf2] at h2; simp [bind, Except.bind] at h2
      | ok s2' =>
        rw [hf1] at h1
        rw [hf2] at h2
        simp only [bind, Except.bind] at h1 h2
        exact ih s1' s2' t1 t2 (hfg s1 s2 a s1' s2' hr hf1 hf2) h1 h2

theorem compileExercise_view (lookup : String → LookupResult) (rtb : String)
    (rbs : Nat) (rounds : Nat) (ilb : Bool) (allEx : List (Exercise × ExMeta))
    (em : Exercise × ExMeta) {st1 st2 st1' st2' : CompState}
    (hv : st1.steps.map stepView = st2.steps.map stepView)
    (h1 : compileExercise lookup true rtb rbs rounds ilb allEx em st1 = Except.ok st1')
    (h2 : compileExercise lookup false rtb rbs rounds ilb allEx em st2 = Except.ok st2') :
    st1'.steps.map stepView = st2'.steps.map stepView := by
  have h1' : Except.ok (compileExercisePure lookup rtb rbs rounds ilb allEx em (5, 0) st1)
      = Except.ok st1' := h1
  have h2' : (durationNonLap em.1).map
      (fun dtv => compileExercisePure lookup rtb rbs rounds ilb allEx em dtv st2)
      = Except.ok st2' := h2
  cases hd : durationNonLap em.1 with
  | error e => rw [hd] at h2'; simp [Except.map] at h2'
  | ok dtv2 =>
    rw [hd] at h2'
    simp only [Except.map, Except.ok.injEq] at h2'
    rw [← Except.ok.inj h1', ← h2']
    exact compileExercisePure_view lookup rtb rbs rounds ilb allEx em (5, 0) dtv2 hv

theorem compileBlock_view (lookup : String → LookupResult) (numBlocks bi : Nat)
    (b : Block) {st1 st2 st1' st2' : CompState}
    (hv : st1.steps.map stepView = st2.steps.map stepView)
    (h1 : compileBlock lookup true numBlocks bi b st1 = Except.ok st1')
    (h2 : compileBlock lookup false numBlocks bi b st2 = Except.ok st2') :
    st1'.steps.map stepView = st2'.steps.map stepView := by
  unfold compileBlock at h1 h2
  set st01 : CompState :=
    if b.warmup_enabled then
      CompState.mk (st1.steps ++ [createWarmupStep b.warmup_duration_sec b.warmup_activity])
        st1.cats
    else st1 with hst01
  set st02 : CompState :=
    if b.warmup_enabled then
      CompState.mk (st2.steps ++ [createWarmupStep b.warmup_duration_sec b.warmup_activity])
        st2.cats
    else st2 with hst02
  have hv0 : st01.steps.map stepView = st02.steps.map stepView := by
    rw [hst01, hst02]
    split
    · simp only [List.map_append, hv]
    · exact hv
  simp only [bind, Except.bind] at h1 h2
  cases hfold1 : (supersetExercises b ++ standaloneExercises b).foldlM
      (fun s em => compileExercise lookup true (b.rest_type.getD "timed")
        (restBetweenSets b) (parseStructure b.structureStr) (bi = numBlocks - 1)
        (supersetExercises b ++ standaloneExercises b) em s) st01 with
  | error e => rw [hfold1] at h1; simp at h1
  | ok m1 =>
    cases hfold2 : (supersetExercises b ++ standaloneExercises b).foldlM
        (fun s em => compileExercise lookup false (b.rest_type.getD "timed")
          (restBetweenSets b) (parseStructure b.structureStr) (bi = numBlocks - 1)
          (supersetExercises b ++ standaloneExercises b) em s) st02 with
    | error e => rw [hfold2] at h2; simp at h2
    | ok m2 =>
      rw [hfold1] at h1
      rw [hfold2] at h2
      simp only [pure, Except.pure, Except.ok.injEq] at h1 h2
      have hvm : m1.steps.map stepView = m2.steps.map stepView := by
        refine foldlM_except_rel
          (R := fun a b => a.steps.map stepView = b.steps.map stepView) ?_ _
          st01 st02 m1 m2 hv0 hfold1 hfold2
        intro a b x a' b' hr ha hb
        exact compileExercise_view _ _ _ _ _ _ _ hr ha hb
      rw [← h1, ← h2]
      cases hb : b.rest_between_rounds_sec with
      | none => exact hvm
      | some r =>
        by_cases hcond : r ≠ 0 && !(bi = numBlocks - 1 : Bool)
        · simp only [hcond, if_true, List.map_append, hvm]
        · simp only [hcond, Bool.false_eq_true, if_false]
          exact hvm

/-- A constant catalog lookup: every name resolves to category 22 with
display name "Push Up" and an exact match. -/
def lkpConst : String → LookupResult :=
  fun _ => LookupResult.mk 22 "Push Up" (some "Push Up") "exact" none

/-- The C5 counterexample input: one block, one exercise declaring one
warm-up set of five reps. -/
def cexC5 : BlocksJson :=
  { blocks := [{ exercises := [{ name := some "Push Up",
                                 warmup_sets := some 1,
                                 warmup_reps := some 5 }] }] }

/-- The step list the compiler produces for `cexC5` (lap mode and
non-lap mode agree on this input, since the working duration is open in
both). -/
def c5Steps : List Step :=
  [Step.warmup "Warm-Up" 1 5 0 2 "Cardio",
   Step.ex "Push Up (Warm-Up)" 22 1 29 5 none,
   Step.rest "Rest" 1 0 30000,
   Step.ex "Push Up" 22 0 5 0 none]

/-- C5, counterexample.  Compiling `cexC5` with `use_lap_button=true`
emits the warm-up-set exercise step "Push Up (Warm-Up)" with
duration_type 29 (reps) and duration_value 5, not OPEN(5)/0: the
warm-up-set branch (lines 397-441) ignores `use_lap_button`, so the
claim's parenthetical about warm-up-set exercise steps is false. -/
theorem C5_lap_button_counterexample :
    blocksToSteps cexC5 lkpConst true = Except.ok (c5Steps, [22]) ∧
    c5Steps[1]? = some (Step.ex "Push Up (Warm-Up)" 22 1 29 5 none) ∧
    stepIsExercise (Step.ex "Push Up (Warm-Up)" 22 1 29 5 none) = true ∧
    (29 : Nat) ≠ 5 :=
  ⟨by rfl, rfl, rfl, by decide⟩

/-- The amended C5 (see the counterexample above): with
`use_lap_button=true` every working exercise step (intensity active) has
duration_type OPEN(5) and duration_value 0 - warm-up-set exercise steps
keep their reps duration - and the repeat steps (their positions,
targets and counts) are identical to the non-lap-button compilation. -/
theorem C5_lap_button_amended :
    (∀ (bj : BlocksJson) (lookup : String → LookupResult) (steps : List Step)
        (cats : List Nat),
      blocksToSteps bj lookup true = Except.ok (steps, cats) →
      ∀ s ∈ steps, lapOk s = true) ∧
    (∀ (bj : BlocksJson) (lookup : String → LookupResult)
        (s1 : List Step) (c1 : List Nat) (s2 : List Step) (c2 : List Nat),
      blocksToSteps bj lookup true = Except.ok (s1, c1) →
      blocksToSteps bj lookup false = Except.ok (s2, c2) →
      s1.map stepView = s2.map stepView) := by
  constructor
  · intro bj lookup steps cats h
    unfold blocksToSteps at h
    set init : CompState :=
      match bj.blocks.head? with
      | none => CompState.mk [createWarmupStep none none] []
      | some b0 =>
        if !b0.warmup_enabled then CompState.mk [createWarmupStep none none] []
        else CompState.mk [] [] with hinit
    have h0 : lapAll init.steps := by
      rw [hinit]
      cases bj.blocks.head? with
      | none => exact lapAll_singleton (createWarmupStep_lapOk _ _)
      | some b0 =>
        cases hw : b0.warmup_enabled with
        | false => simpa [hw] using lapAll_singleton (createWarmupStep_lapOk none none)
        | true =>
          simp only [hw, Bool.not_true, Bool.false_eq_true, if_false]
          intro s hs
          simp at hs
    simp only [bind, Except.bind] at h
    cases hfold : bj.blocks.enum.foldlM
        (fun s p => compileBlock lookup true bj.blocks.length p.1 p.2 s) init with
    | error e => rw [hfold] at h; simp at h
    | ok fin =>
      rw [hfold] at h
      simp only [pure, Except.pure, Except.ok.injEq, Prod.mk.injEq] at h
      have hfin : lapAll fin.steps := by
        refine foldlM_except_inv (P := fun s => lapAll s.steps) ?_ _ init fin hfold h0
        intro s p s' hcs hps
        exact compileBlock_lapAll _ _ _ _ _ _ hcs hps
      rw [← h.1]
      exact hfin
  · intro bj lookup s1 c1 s2 c2 h1 h2
    unfold blocksToSteps at h1 h2
    set init : CompState :=
      match bj.blocks.head? with
      | none => CompState.mk [createWarmupStep none none] []
      | some b0 =>
        if !b0.warmup_enabled then CompState.mk [createWarmupStep none none] []
        else CompState.mk [] [] with hinit
    simp only [bind, Except.bind] at h1 h2
    cases hfold1 : bj.blocks.enum.foldlM
        (fun s p => compileBlock lookup true bj.blocks.length p.1 p.2 s) init with
    | error e => rw [hfold1] at h1; simp at h1
    | ok fin1 =>
      cases hfold2 : bj.blocks.enum.foldlM
          (fun s p => compileBlock lookup false bj.blocks.length p.1 p.2 s) init with
      | error e => rw [hfold2] at h2; simp at h2
      | ok fin2 =>
        rw [hfold1] at h1
        rw [hfold2] at h2
        simp only [pure, Except.pure, Except.ok.injEq, Prod.mk.injEq] at h1 h2
        have hvfin : fin1.steps.map stepView = fin2.steps.map stepView := by
          refine foldlM_except_rel
            (R := fun a b => a.steps.map stepView = b.steps.map stepView) ?_ _
            init init fin1 fin2 rfl hfold1 hfold2
          intro a b x a' b' hr ha hb
          exact compileBlock_view _ _ _ _ hr ha hb
        rw [← h1.1, ← h2.1]
        exact hvfin

/-- Witness for the amended C5 at the concrete input `cexC5`: the
working step is in lap form, and the repeat views of the lap and
non-lap compilations agree. -/
theorem C5_lap_button_amended_witness :
    lapOk (Step.ex "Push Up" 22 0 5 0 none) = true ∧
    c5Steps.map stepView = c5Steps.map stepView := by
  constructor
  · exact C5_lap_button_amended.1 cexC5 lkpConst c5Steps [22] (by rfl)
      (Step.ex "Push Up" 22 0 5 0 none) (by decide)
  · exact C5_lap_button_amended.2 cexC5 lkpConst c5Steps [22] c5Steps [22]
      (by rfl) (by rfl)

/-! ## Concrete witnesses for C3, C4 and C10 -/

/-- The step list compiled from the C1 "Push Day" input under the
constant lookup `lkpConst` (non-lap mode). -/
def c3Steps : List Step :=
  [Step.warmup "Warm-Up" 1 5 0 2 "Cardio",
   Step.ex "Push Up" 22 0 29 10 none,
   Step.rest "Rest" 1 0 30000,
   Step.rep 1 3,
   Step.ex "Push Up" 22 0 29 15 none,
   Step.rest "Rest" 1 0 30000,
   Step.rep 4 3]

/-- Witness for C3: on the compiled "Push Day" list, the repeat at
index 3 targets index 1, which holds an exercise step. -/
theorem C3_repeat_targets_witness :
    1 < 3 ∧ ∃ s, c3Steps[1]? = some s ∧ (stepIsExercise s || stepIsWarmup s) = true :=
  C3_repeat_targets c1PushDay lkpConst false c3Steps [22] (by rfl) 3 1 3 (by rfl)

/-- Witness for C4 at concrete categories and a concrete compilation:
38 remaps to 2, 35 to 29, 22 stays, and the default warm-up step of the
empty-blocks compilation is within the valid category range. -/
theorem C4_category_remap_witness :
    validateCategoryId 38 = 2 ∧ validateCategoryId 35 = 29 ∧
    validateCategoryId 22 = 22 ∧
    stepCatOk (Step.warmup "Warm-Up" 1 5 0 2 "Cardio") = true :=
  ⟨C4_category_remap.1,
   C4_category_remap.2.1 35 (by decide) (by decide),
   C4_category_remap.2.2.1 22 (by decide),
   C4_category_remap.2.2.2 (BlocksJson.mk none [])
     (fun _ => LookupResult.mk 2 "Cardio" none "exact" none) false
     [createWarmupStep none none] [] (by rfl)
     (Step.warmup "Warm-Up" 1 5 0 2 "Cardio") (by decide)⟩

/-- Witness for C10 at the empty blocks input: the compiled list is the
single default warm-up step. -/
theorem C10_steps_nonempty_witness :
    0 < [createWarmupStep none none].length ∧
      ((match (BlocksJson.mk none []).blocks.head? with
        | none => True
        | some b0 => b0.warmup_enabled = false) →
        [createWarmupStep none none].head? = some (createWarmupStep none none)) :=
  C10_steps_nonempty (BlocksJson.mk none [])
    (fun _ => LookupResult.mk 2 "Cardio" none "exact" none)
    false [createWarmupStep none none] [] (by rfl)

/-! ## The mapping resolver (`blocks_to_hyrox_yaml.py`) and the
validation workflow (`workflow.py`)

`re.sub`/`re.search` patterns are again hand-translated: a `*Here`
function decides a match at the current position, and a leftmost scan
reproduces the search.  As before, all inputs are single-line. -/

/-- Index of the leftmost position whose suffix satisfies `p`. -/
def findIdxWhere (p : List Char → Bool) : List Char → Option Nat
  | [] => none
  | c :: rest =>
    if p (c :: rest) then some 0 else (findIdxWhere p rest).map (fun i => i + 1)

/-- `re.sub(pat-to-end-of-string, '', cs)`: cut at the leftmost position
whose whole suffix matches. -/
def cutAt (p : List Char → Bool) (cs : List Char) : List Char :=
  match findIdxWhere p cs with
  | none => cs
  | some i => cs.take i

/-- Leftmost position where `p` extracts a value; returns index and value. -/
def findSuffixPat {α : Type} (p : List Char → Option α) : List Char → Option (Nat × α)
  | [] => none
  | c :: rest =>
    match p (c :: rest) with
    | some a => some (0, a)
    | none => (findSuffixPat p rest).map (fun q => (q.1 + 1, q.2))

/-- Leftmost position where `p` extracts a value; returns the value only. -/
def findFirstSome {α : Type} (p : List Char → Option α) : List Char → Option α
  | [] => none
  | c :: rest =>
    match p (c :: rest) with
    | some a => some a
    | none => findFirstSome p rest

/-- `re.split` on a single-character class: split at every matching
character, keeping empty pieces. -/
def splitPred (p : Char → Bool) : List Char → List (List Char)
  | [] => [[]]
  | c :: rest =>
    if p c then [] :: splitPred p rest
    else
      match splitPred p rest with
      | [] => [[c]]
      | q :: qs => (c :: q) :: qs

/-- Length of the `\s*\([^)]+\)\s*` match at the head, if any (the
trailing `\s*` is greedy). -/
def parenHereLen (cs : List Char) : Option Nat :=
  let w1 := cs.takeWhile Char.isWhitespace
  match cs.drop w1.length with
  | '(' :: r1 =>
    let content := r1.takeWhile (fun c => c ≠ ')')
    if content = [] then none
    else
      match r1.drop content.length with
      | ')' :: r2 =>
        let w2 := r2.takeWhile Char.isWhitespace
        some (w1.length + 1 + content.length + 1 + w2.length)
      | _ => none
  | _ => none

/-- Fueled worker for `re.sub(r'\s*\([^)]+\)\s*', ' ', cs)`: replace each
leftmost non-overlapping match by one space.  Every match is nonempty, so
fuel `cs.length` suffices. -/
def subParensAux : Nat → List Char → List Char
  | _, [] => []
  | 0, cs => cs
  | fuel + 1, c :: rest =>
    match parenHereLen (c :: rest) with
    | some len => ' ' :: subParensAux fuel ((c :: rest).drop len)
    | none => c :: subParensAux fuel rest

/-- `re.sub(r'\s*\([^)]+\)\s*', ' ', cs)`. -/
def subParensL (cs : List Char) : List Char := subParensAux cs.length cs

/-- Does `\s*\([^)]+\)\s*$` match this entire suffix?  (`[^)]` admits
`(`, so the leftmost match opens at the earliest `(` not separated from
the closing `)` by another `)`; the leftmost scan of `cutAt` finds it.) -/
def parenEndHere (cs : List Char) : Bool :=
  let r := cs.dropWhile Char.isWhitespace
  match r with
  | '(' :: r1 =>
    let content := r1.takeWhile (fun c => c ≠ ')')
    content ≠ [] &&
      (match r1.drop content.length with
       | ')' :: r2 => r2.all Char.isWhitespace
       | _ => false)
  | _ => false

/-- Does `\s+X\d+` match at the head (`re.sub(r'\s+X\d+.*$', ...)`,
IGNORECASE; `.*$` then eats the rest of the line)? -/
def xDigitHere (cs : List Char) : Bool :=
  let w := cs.takeWhile Char.isWhitespace
  w ≠ [] &&
    (match cs.drop w.length with
     | x :: r =>
       (x = 'x' || x = 'X') &&
         (match r.head? with
          | some d => d.isDigit
          | none => false)
     | [] => false)

/-- Does `\s+X[0-9-]+\s+[a-z0-9]+\s*$` (IGNORECASE) match this entire
suffix? -/
def xDashTokHere (cs : List Char) : Bool :=
  let w1 := cs.takeWhile Char.isWhitespace
  w1 ≠ [] &&
    (match cs.drop w1.length with
     | x :: r1 =>
       (x = 'x' || x = 'X') &&
         (let ds := r1.takeWhile (fun c => c.isDigit || c = '-')
          ds ≠ [] &&
            (let r2 := r1.drop ds.length
             let w2 := r2.takeWhile Char.isWhitespace
             w2 ≠ [] &&
               (let r3 := r2.drop w2.length
                let tok := r3.takeWhile (fun c => c.isAlpha || c.isDigit)
                tok ≠ [] && (r3.drop tok.length).all Char.isWhitespace)))
     | [] => false)

/-- Does `\s+[0-9a-z]\s*$` (IGNORECASE) match this entire suffix? -/
def trailSingleHere (cs : List Char) : Bool :=
  let w := cs.takeWhile Char.isWhitespace
  w ≠ [] &&
    (match cs.drop w.length with
     | c :: rest => (c.isAlpha || c.isDigit) && rest.all Char.isWhitespace
     | [] => false)

/-- `clean_exercise_name` (blocks_to_hyrox_yaml.py lines 119-134). -/
def cleanExerciseName (s : String) : String :=
  let n0 := trimL s.data
  let n1 := subParensL n0
  let n2 := cutAt xDigitHere n1
  let n3 := cutAt xDashTokHere n2
  let n4 := n3.filter (fun c => !(c = '§' || c = '©' || c = '®' || c = '™'))
  let n5 := cutAt trailSingleHere n4
  let n6 := trimL (collapseWsL n5)
  String.mk (trimL n6)

/-- `\s+X\s*(\d+)\s+EACH\s+SIDE$` (IGNORECASE) on this entire suffix:
returns the digit group. -/
def xEachSideHere (cs : List Char) : Option (List Char) :=
  let w1 := cs.takeWhile Char.isWhitespace
  if w1 = [] then none
  else
    match cs.drop w1.length with
    | x :: r1 =>
      if x = 'x' || x = 'X' then
        let r2 := r1.dropWhile Char.isWhitespace
        let ds := r2.takeWhile Char.isDigit
        if ds = [] then none
        else
          let r3 := r2.drop ds.length
          let w2 := r3.takeWhile Char.isWhitespace
          if w2 = [] then none
          else
            let r4 := r3.drop w2.length
            if startsWithCI (String.data "each") r4 then
              let r5 := r4.drop 4
              let w3 := r5.takeWhile Char.isWhitespace
              if w3 = [] then none
              else
                if lowerL (r5.drop w3.length) = String.data "side" then some ds else none
            else none
      else none
    | [] => none

/-- `\s+X\s*(\d+)$` (IGNORECASE) on this entire suffix: the digit group. -/
def xEndHere (cs : List Char) : Option (List Char) :=
  let w1 := cs.takeWhile Char.isWhitespace
  if w1 = [] then none
  else
    match cs.drop w1.length with
    | x :: r1 =>
      if x = 'x' || x = 'X' then
        let r2 := r1.dropWhile Char.isWhitespace
        let ds := r2.takeWhile Char.isDigit
        if ds ≠ [] ∧ r2.drop ds.length = [] then some ds else none
      else none
    | [] => none

/-- `\s+Xi(\d+)$` (IGNORECASE) on this entire suffix: the digit group. -/
def xiEndHere (cs : List Char) : Option (List Char) :=
  let w1 := cs.takeWhile Char.isWhitespace
  if w1 = [] then none
  else
    match cs.drop w1.length with
    | x :: i :: r2 =>
      if (x = 'x' || x = 'X') && (i = 'i' || i = 'I') then
        let ds := r2.takeWhile Char.isDigit
        if ds ≠ [] ∧ r2.drop ds.length = [] then some ds else none
      else none
    | _ => none

/-- `(\d+)\s*[Mm]\s+(.+)` at the head: digit group and trailing group.
A shorter digit run cannot help: the character after it would be a digit,
not `m`, so `\d+` is effectively the maximal run.  `\s+(.+)`: when
nothing follows the maximal whitespace run, `\s+` backtracks one
whitespace character so that `.+` can take it. -/
def distMHere (cs : List Char) : Option (List Char × List Char) :=
  let ds := cs.takeWhile Char.isDigit
  if ds = [] then none
  else
    match (cs.drop ds.length).dropWhile Char.isWhitespace with
    | u :: r2 =>
      if u = 'm' || u = 'M' then
        let w := r2.takeWhile Char.isWhitespace
        if w = [] then none
        else if w.length < r2.length then some (ds, r2.drop w.length)
        else if w.length ≥ 2 then some (ds, r2.drop (w.length - 1))
        else none
      else none
    | [] => none

/-- The `^(KB|DB|OB|TRX)\s+` (IGNORECASE) removal of `parse_exercise_name`:
the matching alternative, followed by whitespace, is stripped once. -/
def subEquipOnce : List (List Char) → List Char → List Char
  | [], cs => cs
  | p :: ps, cs =>
    if startsWithCI p cs then
      let r := cs.drop p.length
      let w := r.takeWhile Char.isWhitespace
      if w ≠ [] then r.drop w.length else subEquipOnce ps cs
    else subEquipOnce ps cs

/-- `parse_exercise_name` (blocks_to_hyrox_yaml.py lines 33-116):
`(base_name, reps_desc, original_desc)`.  The `re.split` of the plain
`X(\d+)$` branch is computed and immediately overwritten by
`desc_name = base_name` in the source, so it is omitted here. -/
def parseExerciseName (s : String) : String × String × String :=
  let name0 := trimL (stripSetLabelL s.data)
  match findSuffixPat xEachSideHere name0 with
  | some (i, ds) =>
    let base := trimL (name0.take i)
    let parts := splitPred (fun c => c = '/' || c = ':') base
    let d0 := if parts.length > 1 then trimL ((parts.getLast?).getD []) else base
    let d1 := trimL (subEquipOnce
      [String.data "kb", String.data "db", String.data "ob", String.data "trx"] d0)
    let d2 := replL (String.data " Into ") (String.data " into ") (capWordsL d1)
    (String.mk base, String.mk (String.data "x" ++ ds ++ String.data " each side"),
     String.mk (d2 ++ String.data " x" ++ ds ++ String.data " each side"))
  | none =>
    match findSuffixPat xEndHere name0 with
    | some (i, ds) =>
      let base := trimL (name0.take i)
      let d2 := replL (String.data " Into ") (String.data " into ") (capWordsL base)
      (String.mk base, String.mk (String.data "x" ++ ds),
       String.mk (d2 ++ String.data " x" ++ ds))
    | none =>
      match findSuffixPat xiEndHere name0 with
      | some (i, ds) =>
        let base := trimL (name0.take i)
        let d := titleL (replaceCharL '/' ' ' base)
        (String.mk base, String.mk (String.data "x" ++ ds),
         String.mk (d ++ String.data " x" ++ ds))
      | none =>
        match findFirstSome distMHere name0 with
        | some (ds, g2) =>
          let base0 := trimL g2
          let base := trimL (cutAt parenEndHere base0)
          (String.mk base, "", String.mk (ds ++ String.data "m"))
        | none => (String.mk name0, "", "")

/-! ## The core name normalizer

`backend/core/normalize.py` is imported by the resolver and the mapping
stores but is not part of `src/`; the following definitions are modelled
from the spec's §4.2 pipeline instead. -/

/-- Modelled from the spec: a reversed `\d+(\.\d+)?` consumed from the
right end of the string; returns the remainder. -/
def specDistNumBack (r : List Char) : Option (List Char) :=
  let a := r.takeWhile Char.isDigit
  if a = [] then none
  else
    let r1 := r.drop a.length
    match r1 with
    | c :: r2 =>
      if c = '.' then
        let b := r2.takeWhile Char.isDigit
        if b ≠ [] then some (r2.drop b.length) else some r1
      else some r1
    | [] => some []

/-- Modelled from the spec: the kept prefix after stripping a trailing
distance token `\d+(\.\d+)?\s*(m|km|mi)` (and trailing whitespace), with
the alternation tried in the order m, km, mi. -/
def specDistEndKept (cs : List Char) : Option (List Char) :=
  let tryNum : List Char → Option (List Char) := fun rAfterUnit =>
    (specDistNumBack (rAfterUnit.dropWhile Char.isWhitespace)).map
      (fun rem => dropTrailWs rem.reverse)
  let r := cs.reverse.dropWhile Char.isWhitespace
  match r with
  | u :: r1 =>
    if lowChar u = 'm' then
      match tryNum r1 with
      | some kept => some kept
      | none =>
        match r1 with
        | k :: r2 => if lowChar k = 'k' then tryNum r2 else none
        | [] => none
    else if lowChar u = 'i' then
      match r1 with
      | m2 :: r2 => if lowChar m2 = 'm' then tryNum r2 else none
      | [] => none
    else none
  | [] => none

/-- Modelled from the spec: strip one trailing distance token, if any. -/
def specCutDistEnd (cs : List Char) : List Char := (specDistEndKept cs).getD cs

/-- Modelled from the spec: the remainder after a leading distance token
`\d+(\.\d+)?\s*(m|km|mi)` followed by whitespace or the end of the
string. -/
def specDistStartRem (cs : List Char) : Option (List Char) :=
  let a := cs.takeWhile Char.isDigit
  if a = [] then none
  else
    let r0 := cs.drop a.length
    let r1 :=
      match r0 with
      | c :: r2 =>
        if c = '.' then
          let b := r2.takeWhile Char.isDigit
          if b ≠ [] then r2.drop b.length else r0
        else r0
      | [] => r0
    let afterUnit : Option (List Char) :=
      match r1.dropWhile Char.isWhitespace with
      | u :: r3 =>
        if lowChar u = 'm' then
          match r3 with
          | w :: r4 =>
            if w.isWhitespace then some r3
            else if w = 'i' || w = 'I' then
              match r4 with
              | w2 :: _ => if w2.isWhitespace then some r4 else none
              | [] => some []
            else none
          | [] => some []
        else if lowChar u = 'k' then
          match r3 with
          | m2 :: r4 =>
            if lowChar m2 = 'm' then
              match r4 with
              | w :: _ => if w.isWhitespace then some r4 else none
              | [] => some []
            else none
          | [] => none
        else none
      | [] => none
    afterUnit.map (fun r => r.dropWhile Char.isWhitespace)

/-- Modelled from the spec: strip one leading distance token, if any. -/
def specCutDistStart (cs : List Char) : List Char := (specDistStartRem cs).getD cs

/-- Modelled from the spec: the core name normalizer (§4.2), standing in
for the absent `backend/core/normalize.py`.  The pipeline: (1) lowercase,
trim whitespace, strip trailing `|`; (2) strip a leading set label
`^[a-z]\d+[;:\s]+`; (3) strip parenthesised weight specs; (4) strip the
equipment prefixes db, kb, bb, sb, mb, trx, cable, band; (5) strip
trailing rep markers `x\d+(.*)` and each/per side|arm|leg; (6) strip
leading and trailing distance tokens `\d+(\.\d+)?\s*(m|km|mi)`;
(7) drop a stray trailing single-character token and collapse
whitespace. -/
def coreNormalize (s : String) : String :=
  let n0 := trimL (lowerL s.data)
  let n1 := rstripPipeL n0
  let n2 := stripSetLabelL n1
  let n3 := subParensL n2
  let n4 := stripEquipGo equipToks n3
  let n5 := cutXRepsL n4
  let n6 := cutEachPerL n5
  let n7 := specCutDistEnd n6
  let n8 := specCutDistStart n7
  let n9 := cutAt trailSingleHere n8
  String.mk (trimL (collapseWsL n9))

/-! ## The mapping stores (`user_mappings.py`, `global_mappings.py`) -/

/-- What `classify` (the absent `backend/core/match.py`) returns, as
consumed by the resolver: a status, the canonical token (`None`
modelled as `none`), and the optional score entry. -/
structure ClassifyResult where
  status : String
  canonical : Option String := none
  score : Option ℚ := none

/-- The resolver's external state and callees: the user-mapping store
and the popularity store (their YAML files live outside `src/`), the
fuzzy matcher `find_garmin_exercise` (whose catalog data file is also
external; the threshold-40 cut is inside the parameter), the classifier
`classify` of the absent `backend/core/match.py`, and the `GARMIN`
canonical table of the absent `cir_to_garmin_yaml.py` (`none` covers a
missing or falsy entry, the looked-up dict's `"name"` field otherwise). -/
structure ResolverEnv where
  userMappings : List (String × String)
  globalMappings : List (String × List (String × Nat))
  findGarmin : String → Option String × ℚ
  classify : String → ClassifyResult
  garminCanonical : String → Option String

/-- `get_user_mapping` (user_mappings.py lines 69-78): normalize, then
look the normalized name up in the store. -/
def getUserMapping (env : ResolverEnv) (exercise_name : String) : Option String :=
  env.userMappings.lookup (coreNormalize exercise_name)

/-- The Python sort key `(-count, name)` as a boolean `≤` test. -/
def popLe (x y : String × Nat) : Bool :=
  y.2 < x.2 || (x.2 = y.2 && decide (x.1 ≤ y.1))

/-- Stable insertion into a list sorted by `le`: the inserted element
(the earlier one in the original order) goes before elements it ties
with, reproducing Python's stable sort. -/
def insertSorted {α : Type} (le : α → α → Bool) (x : α) : List α → List α
  | [] => [x]
  | y :: ys => if le x y then x :: y :: ys else y :: insertSorted le x ys

/-- A stable sort by `le` (insertion sort). -/
def sortStable {α : Type} (le : α → α → Bool) (l : List α) : List α :=
  l.foldr (insertSorted le) []

/-- `get_popular_mappings` (global_mappings.py lines 64-81): normalize,
look up the per-name counter dict, sort its items by `(-count, name)`,
truncate. -/
def getPopularMappings (env : ResolverEnv) (exercise_name : String) (limit : Nat) :
    List (String × Nat) :=
  match env.globalMappings.lookup (coreNormalize exercise_name) with
  | none => []
  | some l => (sortStable popLe l).take limit

/-- `get_most_popular_mapping` (global_mappings.py lines 84-90). -/
def getMostPopularMapping (env : ResolverEnv) (exercise_name : String) :
    Option (String × Nat) :=
  (getPopularMappings env exercise_name 1).head?

/-! ## `map_exercise_to_garmin` (blocks_to_hyrox_yaml.py lines 138-491) -/

/-- The `mappings` dict literal (lines 154-261), in insertion order. -/
def manualMappings : List (String × String) :=
  [("cable/band straight arm pull down", "30-degree Lat Pull-down"),
   ("cable band straight arm pull down", "30-degree Lat Pull-down"),
   ("straight arm pull down", "30-degree Lat Pull-down"),
   ("kb rol into goblet squat", "Goblet Squat"),
   ("kb rdl into goblet squat", "Goblet Squat"),
   ("rdl into goblet squat", "Goblet Squat"),
   ("goblet squat", "Goblet Squat"),
   ("kb bottoms up press", "Kettlebell Floor to Shelf"),
   ("bottoms up press", "Kettlebell Floor to Shelf"),
   ("db incline bench press", "Incline Dumbbell Bench Press"),
   ("incline bench press", "Incline Dumbbell Bench Press"),
   ("ob single arm push jerk", "Dumbbell Power Clean and Jerk"),
   ("single arm push jerk", "Dumbbell Power Clean and Jerk"),
   ("bulgarian split squat", "Dumbbell Bulgarian Split Squat"),
   ("incline back extension/ goodmornings", "Bar Good Morning"),
   ("incline back extension goodmornings", "Bar Good Morning"),
   ("back extension goodmornings", "Bar Good Morning"),
   ("goodmornings", "Bar Good Morning"),
   ("trx rows", "TRX Inverted Row"),
   ("trx row", "TRX Inverted Row"),
   ("kneeling medball slams", "Medicine Ball Slam"),
   ("medball slams", "Medicine Ball Slam"),
   ("200m ski", "Ski Moguls"),
   ("ski", "Ski Moguls"),
   ("plank into pike", "Pike Push-up"),
   ("kb alternating plank drag", "Plank"),
   ("alternating plank drag", "Plank"),
   ("plank drag", "Plank"),
   ("backward sled drag", "Sled Backward Drag"),
   ("sled drag", "Sled Backward Drag"),
   ("backward drag", "Sled Backward Drag"),
   ("burpee max broad jumps", "Burpee"),
   ("burpee broad jump", "Burpee"),
   ("farmer carry", "Farmer's Carry"),
   ("farmers carry", "Farmer's Carry"),
   ("farmer's carry", "Farmer's Carry"),
   ("kb farmers", "Farmer's Carry"),
   ("kettlebell farmers", "Farmer's Carry"),
   ("kb farmer", "Farmer's Carry"),
   ("kettlebell farmer", "Farmer's Carry"),
   ("sled push", "Sled Push"),
   ("walking lunge", "Walking Lunge"),
   ("walking lunges", "Walking Lunge"),
   ("lunge", "Walking Lunge"),
   ("lunges", "Walking Lunge"),
   ("row", "Row"),
   ("rowing", "Row"),
   ("skireg", "Ski Moguls"),
   ("ski erg", "Ski Moguls"),
   ("ski ergometer", "Ski Moguls"),
   ("row / skireg", "Row"),
   ("row/skireg", "Row"),
   ("wall ball", "Wall Ball"),
   ("wall balls", "Wall Ball"),
   ("medicine ball wall ball", "Wall Ball"),
   ("hand release push ups", "Hand Release Push Up"),
   ("hand release push up", "Hand Release Push Up"),
   ("db push press", "Dumbbell Push Press"),
   ("push press", "Dumbbell Push Press"),
   ("dual kb front squat", "Dumbbell Front Squat"),
   ("dual kettlebell front squat", "Dumbbell Front Squat"),
   ("kb front squat", "Dumbbell Front Squat"),
   ("kettlebell front squat", "Dumbbell Front Squat"),
   ("front squat", "Dumbbell Front Squat"),
   ("rdl", "Romanian Deadlift"),
   ("rdls", "Romanian Deadlift"),
   ("romanian deadlift", "Romanian Deadlift"),
   ("dumbbell rdls", "Romanian Deadlift"),
   ("db rdls", "Romanian Deadlift"),
   ("kb rdls", "Romanian Deadlift"),
   ("band-resisted push-ups", "Push Up"),
   ("band resisted push-ups", "Push Up"),
   ("band-resisted push ups", "Push Up"),
   ("band resisted push ups", "Push Up"),
   ("band push-ups", "Push Up"),
   ("band push ups", "Push Up"),
   ("push-ups", "Push Up"),
   ("push ups", "Push Up"),
   ("push-up", "Push Up"),
   ("push up", "Push Up"),
   ("pure torque device", "X Abs"),
   ("pure torque device twists", "X Abs"),
   ("pure torque device holds", "X Abs"),
   ("pure torque device twists or holds", "X Abs"),
   ("torque device", "X Abs"),
   ("torque twists", "X Abs"),
   ("torque holds", "X Abs"),
   ("freak athlete back extensions", "Ghd Back Extensions"),
   ("freak athlete hyper", "Ghd Back Extensions"),
   ("back extensions", "Ghd Back Extensions"),
   ("back extension", "Ghd Back Extensions"),
   ("ghd back extensions", "Ghd Back Extensions"),
   ("ghd back extension", "Ghd Back Extensions"),
   ("seal row", "Chest-Supported Dumbbell Row"),
   ("seal rows", "Chest-Supported Dumbbell Row"),
   ("chest-supported dumbbell row", "Chest-Supported Dumbbell Row"),
   ("chest supported dumbbell row", "Chest-Supported Dumbbell Row"),
   ("chest-supported row", "Chest-Supported Dumbbell Row"),
   ("chest supported row", "Chest-Supported Dumbbell Row")]

/-- `sorted(mappings.items(), key=lambda x: len(x[0]), reverse=True)`:
stable, longest key first. -/
def sortByKeyLenDesc (l : List (String × String)) : List (String × String) :=
  sortStable (fun x y => y.1.length ≤ x.1.length) l

/-- The exact/substring loop over the sorted mappings (lines 288-305):
an exact match on `normalized` returns immediately; otherwise the
longest substring key wins, the first seen keeping ties (the sort put
longer keys first, so `>` never replaces an equal length). -/
def manualScanGo (normalized : String) :
    List (String × String) → Option (String × Nat) → Option String × Option (String × Nat)
  | [], best => (none, best)
  | (k, v) :: rest, best =>
    if normalized = k then (some v, best)
    else if containsSub k.data normalized.data then
      match best with
      | some (_, bl) =>
        if k.length > bl then manualScanGo normalized rest (some (v, k.length))
        else manualScanGo normalized rest best
      | none =>
        if k.length > 0 then manualScanGo normalized rest (some (v, k.length))
        else manualScanGo normalized rest best
    else manualScanGo normalized rest best

/-- The `mapping_info` dict: keys it can hold by the end of
`map_exercise_to_garmin` (a key that was never written is `none`). -/
structure MappingInfo where
  original_name : String
  source : Option String := none
  confidence : Option ℚ := none
  method : Option String := none
  popularity_count : Option Nat := none
  reason : Option String := none
  garmin_name : Option String := none
deriving DecidableEq

/-- Python truthiness of `garmin_name`: `None` and `""` are falsy. -/
def optStrTruthy : Option String → Bool
  | some s => s ≠ ""
  | none => false

/-- Layer 1, user mappings (lines 268-274): only `garmin_name` is
assigned, neither source nor confidence. -/
def layerUser (env : ResolverEnv) (clean_name : String) (uum : Bool) : Option String :=
  if uum then
    match getUserMapping env clean_name with
    | some u => if u ≠ "" then some u else none
    | none => none
  else none

/-- The `mapping_info` updates of the popular layer (lines 280-284). -/
def popularInfo (info : MappingInfo) (cnt : Nat) : MappingInfo :=
  { info with
      source := some "popular_mapping"
      confidence := some (min (95/100 : ℚ) (7/10 + (cnt : ℚ) * (5/100)))
      method := some ("popular_choice_" ++ toString cnt ++ "_users")
      popularity_count := some cnt }

/-- Layer 2, global popular mappings (lines 277-284). -/
def layerPopular (env : ResolverEnv) (clean_name : String)
    (p : Option String × MappingInfo) : Option String × MappingInfo :=
  if !optStrTruthy p.1 then
    match getMostPopularMapping env clean_name with
    | some nc => (some nc.1, popularInfo p.2 nc.2)
    | none => p
  else p

/-- Layer 3, manual mappings, exact then longest substring
(lines 287-311). -/
def layerManual (normalized : String) (p : Option String × MappingInfo) :
    Option String × MappingInfo :=
  if !optStrTruthy p.1 then
    match manualScanGo normalized (sortByKeyLenDesc manualMappings) none with
    | (some v, _) =>
      (some v, { p.2 with source := some "manual_mapping", confidence := some 1,
                          method := some "exact_match" })
    | (none, some bm) =>
      if bm.1 ≠ "" then
        (some bm.1,
       { p.2 with source := some "manual_mapping", confidence := some (95/100),
                  method := some "substring_match" })
      else p
    | (none, none) => p
  else p

/-- Layer 4, fuzzy match against the Garmin database (lines 316-322):
the tuple unpack reassigns `garmin_name` even on a miss. -/
def layerFuzzy (env : ResolverEnv) (clean_name : String)
    (p : Option String × MappingInfo) : Option String × MappingInfo :=
  if !optStrTruthy p.1 then
    let r := env.findGarmin clean_name
    if optStrTruthy r.1 then
      (r.1, { p.2 with source := some "garmin_database", confidence := some r.2,
                       method := some "fuzzy_match" })
    else (r.1, p.2)
  else p

/-- Layer 5, canonical classification (lines 325-333). -/
def layerCanonical (env : ResolverEnv) (clean_name : String)
    (p : Option String × MappingInfo) : Option String × MappingInfo :=
  if !optStrTruthy p.1 then
    let result := env.classify clean_name
    let canonical := if result.status ≠ "unknown" then result.canonical else none
    match canonical with
    | some cn =>
      if cn ≠ "" then
        match env.garminCanonical cn with
        | some gname =>
          (some gname, { p.2 with source := some "canonical_mapping",
                                  confidence := some (result.score.getD (4/5)),
                                  method := some "canonical_match" })
        | none => p
      else p
    | none => p
  else p

/-- Layer 6, final fallback (lines 336-341). -/
def layerFallback (clean_name : String) (p : Option String × MappingInfo) :
    Option String × MappingInfo :=
  if !optStrTruthy p.1 then
    (some (String.mk (titleL (replaceCharL '/' ' ' clean_name.data))),
     { p.2 with source := some "fallback", confidence := some 0,
                method := some "title_case_fallback" })
  else p

/-- The six resolution layers (lines 265-341) in order: each runs only
while `garmin_name` is still falsy. -/
def resolveLayers (env : ResolverEnv) (clean_name normalized : String) (uum : Bool)
    (info0 : MappingInfo) : Option String × MappingInfo :=
  layerFallback clean_name
    (layerCanonical env clean_name
      (layerFuzzy env clean_name
        (layerManual normalized
          (layerPopular env clean_name (layerUser env clean_name uum, info0)))))

/-- Lines 421-447: the human reason string derived from `source`.  On
the popular path `popularity_count` is always present; the `int(...)`
re-parse of the method string is attempted only when the count is 1, and
then always raises and is caught (`"users"` strips to `""`), so the
count is unchanged. -/
def mappingReason (info : MappingInfo) : String :=
  if info.source = some "user_mapping" then "chosen from your saved preferences"
  else if info.source = some "popular_mapping" then
    let pc := info.popularity_count.getD 1
    if pc = 1 then "chosen as popular choice by users"
    else "chosen as popular choice by " ++ toString pc ++ " users"
  else if info.source = some "manual_mapping" then "chosen as exact match"
  else if info.source = some "garmin_database" then "chosen as closest match"
  else if info.source = some "canonical_mapping" then "chosen as best match"
  else if info.source = some "fallback" then "used name as-is (no match found)"
  else "chosen automatically"

/-- Python `str(...)` of a reps value. -/
def pyStrReps : RepsVal → String
  | RepsVal.int n => toString n
  | RepsVal.str s => s

/-- Python `\w` (ASCII): letters, digits, underscore. -/
def isWordChar (c : Char) : Bool := c.isAlpha || c.isDigit || c = '_'

/-- A `\b` word boundary between two optional characters (the ends of
the string count as non-word). -/
def bdry (prev next : Option Char) : Bool :=
  (match prev with | some c => isWordChar c | none => false) ≠
    (match next with | some c => isWordChar c | none => false)

/-- Scan all positions of a list, handing the predicate the previous
character. -/
def scanPrev (p : Option Char → List Char → Bool) : Option Char → List Char → Bool
  | prev, [] => p prev []
  | prev, c :: rest => p prev (c :: rest) || scanPrev p (some c) rest

/-- `\b{rep}\s+reps?\b` (IGNORECASE) at this position.  After `rep`, the
optional `s` is taken when it gives a boundary; a following `s` blocks
the boundary of the bare `rep`. -/
def repWordAt (rs : List Char) (prev : Option Char) (cs : List Char) : Bool :=
  bdry prev cs.head? && startsWithCI (lowerL rs) cs &&
    (let r1 := cs.drop rs.length
     let w := r1.takeWhile Char.isWhitespace
     w ≠ [] &&
       (let r2 := r1.drop w.length
        startsWithCI (String.data "rep") r2 &&
          (match r2.drop 3 with
           | c :: r4 =>
             if c = 's' || c = 'S' then bdry (some c) r4.head?
             else bdry (some 'p') (some c)
           | [] => true)))

/-- `\b[Xx]{rep}\b` (IGNORECASE) at this position. -/
def xRepAt2 (rs : List Char) (prev : Option Char) (cs : List Char) : Bool :=
  bdry prev cs.head? &&
    (match cs with
     | c :: r1 =>
       (c = 'x' || c = 'X') && startsWithCI (lowerL rs) r1 &&
         bdry (some (rs.getLastD 'x')) (r1.drop rs.length).head?
     | [] => false)

/-- `\b{rep}\s*[Ww]b\b` (IGNORECASE) at this position. -/
def repWbAt (rs : List Char) (prev : Option Char) (cs : List Char) : Bool :=
  bdry prev cs.head? && startsWithCI (lowerL rs) cs &&
    (match (cs.drop rs.length).dropWhile Char.isWhitespace with
     | w :: b :: r4 =>
       (w = 'w' || w = 'W') && (b = 'b' || b = 'B') && bdry (some b) r4.head?
     | _ => false)

/-- Lines 465-477: is the rep number already in the name (one of the
three word-boundary patterns)? -/
def repNumberInName (rs : List Char) (owd : List Char) : Bool :=
  scanPrev (repWordAt rs) none owd || scanPrev (xRepAt2 rs) none owd ||
    scanPrev (repWbAt rs) none owd

/-- `\d+\s+reps?` at this position (the optional `s` and the missing
trailing anchor make `rep` sufficient). -/
def digitsWsRepHere (cs : List Char) : Bool :=
  let ds := cs.takeWhile Char.isDigit
  ds ≠ [] &&
    (let r1 := cs.drop ds.length
     let w := r1.takeWhile Char.isWhitespace
     w ≠ [] && startsWithCI (String.data "rep") (r1.drop w.length))

/-- `re.search(r'\d+\s+reps?', owd, IGNORECASE)` as a Bool. -/
def hasDigitsWsRep (cs : List Char) : Bool := (findIdxWhere digitsWsRepHere cs).isSome

/-- Lines 449-490: the `"lap | original (reason)"` description built
from the original exercise name. -/
def finalDescription (ex_name : String) (ex_reps : Option RepsVal) (reps_desc : String)
    (reason : String) : String :=
  let owd0 := trimL ex_name.data
  let owd1 := trimL (stripSetLabelL owd0)
  let hasRepsInName := hasXDigit owd1
  let hasRepsWord := hasDigitsWsRep owd1
  let repNum :=
    match ex_reps with
    | some r => repNumberInName (pyStrReps r).data owd1
    | none => false
  let owd2 :=
    if !hasRepsInName && !hasRepsWord && !repNum then
      match ex_reps with
      | some r => owd1 ++ (String.data " x" ++ (pyStrReps r).data)
      | none =>
        if reps_desc ≠ "" && !containsSub (lowerL reps_desc.data) (lowerL owd1) then
          owd1 ++ (' ' :: reps_desc.data)
        else owd1
    else owd1
  if owd2 ≠ [] then
    String.mk (String.data "lap | " ++ owd2 ++ String.data " (" ++ reason.data ++
      String.data ")")
  else String.mk (String.data "lap (" ++ reason.data ++ String.data ")")

/-- Everything after the resolution layers (lines 343-491).  The
description block of lines 349-371 assigns a local `description` that is
never read afterwards and cannot raise, so it is omitted.  The check of
line 377 reads `mapping_info.get("confidence", 0.0)`: the key always
exists, so the user-mapping path (which never writes it) compares
`None < 0.40` - a `TypeError`.  When the comparison does run and the
confidence is below 0.40 (or `garmin_name` is falsy), the branch body
reads the undefined `effective_name` (line 379) - a `NameError`.
Otherwise the reason string and the final description are built and the
3-tuple is returned. -/
def finishResolution (ex_name : String) (ex_reps : Option RepsVal) (reps_desc : String)
    (g : Option String) (info : MappingInfo) :
    Except PyErr (String × String × MappingInfo) :=
  let garmin_name := g.getD ""
  if garmin_name = "" then Except.error PyErr.nameError
  else
    match info.confidence with
    | none => Except.error PyErr.typeError
    | some c =>
      if c < 2/5 then Except.error PyErr.nameError
      else
        let reason := mappingReason info
        Except.ok (garmin_name, finalDescription ex_name ex_reps reps_desc reason,
          { info with reason := some reason, garmin_name := some garmin_name })

/-- `map_exercise_to_garmin` (lines 138-491): parse, clean, normalize,
resolve through the six layers, then finish. -/
def mapExerciseToGarmin (env : ResolverEnv) (ex_name : String) (ex_reps : Option RepsVal)
    (ex_distance_m : Option ℚ) (use_user_mappings : Bool) :
    Except PyErr (String × String × MappingInfo) :=
  let pr := parseExerciseName ex_name
  let clean_name := cleanExerciseName pr.1
  let normalized := String.mk (lowerL (coreNormalize clean_name).data)
  let gi := resolveLayers env clean_name normalized use_user_mappings
    { original_name := ex_name }
  finishResolution ex_name ex_reps pr.2.1 gi.1 gi.2

/-! ## `validate_workout_mapping` (workflow.py lines 44-113) -/

/-- One entry of `extract_all_exercises_from_blocks`. -/
structure ExInfo where
  name : String
  block : String
  location : String
  sets : Option Nat := none
  reps : Option RepsVal := none
  distance_m : Option ℚ := none
  ty : Option String := none
deriving DecidableEq

/-- `extract_all_exercises_from_blocks` (workflow.py lines 9-41): per
block, the flat `exercises` array first, then the superset exercises. -/
def extractAllExercisesFromBlocks (bj : BlocksJson) : List ExInfo :=
  (bj.blocks.enum.map (fun bi =>
    let blockLabel := bi.2.label.getD ("Block " ++ toString (bi.1 + 1))
    bi.2.exercises.enum.map (fun ei =>
      ExInfo.mk (ei.2.name.getD "") blockLabel
        ("exercises[" ++ toString ei.1 ++ "]")
        ei.2.sets ei.2.reps ei.2.distance_m ei.2.ty) ++
    (bi.2.supersets.enum.map (fun si =>
      si.2.exercises.enum.map (fun ei =>
        ExInfo.mk (ei.2.name.getD "") blockLabel
          ("supersets[" ++ toString si.1 ++ "].exercises[" ++ toString ei.1 ++ "]")
          ei.2.sets ei.2.reps ei.2.distance_m ei.2.ty))).join)).join

/-- The `results` dict of `validate_workout_mapping`.  The per-exercise
entries of the three lists are never constructed (the unpack on line 65
raises first), so their element type is just the original name. -/
structure ValidationResult where
  total_exercises : Nat
  validated_exercises : List String := []
  needs_review : List String := []
  unmapped_exercises : List String := []
  can_proceed : Bool := true
deriving DecidableEq

/-- Python `a, b = t` for a 3-tuple `t`: always
`ValueError: too many values to unpack (expected 2)`. -/
def pyUnpack2of3 {α β γ : Type} (t : α × β × γ) : Except PyErr (α × β) :=
  Except.error PyErr.valueError

/-- The body of the per-exercise loop (lines 59-106): unnamed exercises
are skipped (`continue`); for a named one, the resolver's 3-tuple is
unpacked into two names on line 65, so the suggestion and classification
code below line 70 is never reached. -/
def validateStep (env : ResolverEnv) (acc : ValidationResult) (exi : ExInfo) :
    Except PyErr ValidationResult :=
  if exi.name = "" then Except.ok acc
  else
    match mapExerciseToGarmin env exi.name exi.reps exi.distance_m true with
    | Except.error e => Except.error e
    | Except.ok t =>
      match pyUnpack2of3 t with
      | Except.error e => Except.error e
      | Except.ok _ => Except.ok acc

/-- `validate_workout_mapping` (lines 44-113). -/
def validateWorkoutMapping (env : ResolverEnv) (bj : BlocksJson) :
    Except PyErr ValidationResult :=
  let exercises := extractAllExercisesFromBlocks bj
  match exercises.foldlM (validateStep env)
      (ValidationResult.mk exercises.length [] [] [] true) with
  | Except.error e => Except.error e
  | Except.ok r =>
    Except.ok { r with
      can_proceed := if r.unmapped_exercises.isEmpty then r.can_proceed else false }

/-! ## C7, C8, C6 -/

/-- A resolver environment with empty stores and missing external
matchers: the fuzzy matcher misses (confidence 0), the classifier
answers unknown, the canonical table is empty. -/
def envEmptyBase : ResolverEnv :=
  { userMappings := []
    globalMappings := []
    findGarmin := fun _ => (none, 0)
    classify := fun _ => { status := "unknown" }
    garminCanonical := fun _ => none }

/-- The environment of the C7 failing input: one saved user mapping. -/
def envC7 : ResolverEnv :=
  { envEmptyBase with userMappings := [("bench", "Barbell Bench Press")] }

/-- The environment of the C8 example: a popularity entry of count 4. -/
def envC8 : ResolverEnv :=
  { envEmptyBase with globalMappings := [("bench", [("Barbell Bench Press", 4)])] }

theorem optStrTruthy_some {s : String} (h : s ≠ "") : optStrTruthy (some s) = true := by
  simp [optStrTruthy, h]

theorem layerPopular_skip (env : ResolverEnv) (clean : String) (g : Option String)
    (info : MappingInfo) (h : optStrTruthy g = true) :
    layerPopular env clean (g, info) = (g, info) := by
  unfold layerPopular
  simp only [h, Bool.not_true, Bool.false_eq_true, if_false]

theorem layerManual_skip (normalized : String) (g : Option String)
    (info : MappingInfo) (h : optStrTruthy g = true) :
    layerManual normalized (g, info) = (g, info) := by
  unfold layerManual
  simp only [h, Bool.not_true, Bool.false_eq_true, if_false]

theorem layerFuzzy_skip (env : ResolverEnv) (clean : String) (g : Option String)
    (info : MappingInfo) (h : optStrTruthy g = true) :
    layerFuzzy env clean (g, info) = (g, info) := by
  unfold layerFuzzy
  simp only [h, Bool.not_true, Bool.false_eq_true, if_false]

theorem layerCanonical_skip (env : ResolverEnv) (clean : String) (g : Option String)
    (info : MappingInfo) (h : optStrTruthy g = true) :
    layerCanonical env clean (g, info) = (g, info) := by
  unfold layerCanonical
  simp only [h, Bool.not_true, Bool.false_eq_true, if_false]

theorem layerFallback_skip (clean : String) (g : Option String)
    (info : MappingInfo) (h : optStrTruthy g = true) :
    layerFallback clean (g, info) = (g, info) := by
  unfold layerFallback
  simp only [h, Bool.not_true, Bool.false_eq_true, if_false]

theorem layerUser_hit (env : ResolverEnv) (clean : String) {u : String}
    (hu : getUserMapping env clean = some u) (hne : u ≠ "") :
    layerUser env clean true = some u := by
  unfold layerUser
  rw [if_pos rfl]
  simp only [hu]
  rw [if_pos hne]

theorem layerUser_none (env : ResolverEnv) (clean : String) (uum : Bool)
    (hu : getUserMapping env clean = none) :
    layerUser env clean uum = none := by
  unfold layerUser
  cases uum
  · rw [if_neg (by simp)]
  · rw [if_pos rfl]
    simp only [hu]

theorem layerPopular_hit (env : ResolverEnv) (clean : String) (info0 : MappingInfo)
    {n : String} {cnt : Nat}
    (hpop : getMostPopularMapping env clean = some (n, cnt)) :
    layerPopular env clean (none, info0) = (some n, popularInfo info0 cnt) := by
  unfold layerPopular
  rw [if_pos (show (!optStrTruthy ((none : Option String), info0).1) = true from rfl)]
  rw [hpop]

/-- The user layer leaves source and confidence untouched, so the layers
return the untouched `info0` with the user name. -/
theorem resolveLayers_user (env : ResolverEnv) (clean normalized : String)
    (info0 : MappingInfo) (u : String) (hu : getUserMapping env clean = some u)
    (hne : u ≠ "") :
    resolveLayers env clean normalized true info0 = (some u, info0) := by
  have htr : optStrTruthy (some u) = true := optStrTruthy_some hne
  unfold resolveLayers
  rw [layerUser_hit env clean hu hne,
      layerPopular_skip env clean (some u) info0 htr,
      layerManual_skip normalized (some u) info0 htr,
      layerFuzzy_skip env clean (some u) info0 htr,
      layerCanonical_skip env clean (some u) info0 htr,
      layerFallback_skip clean (some u) info0 htr]

/-- With no user hit and a nonempty most-popular name, the layers stop
at the popular layer. -/
theorem resolveLayers_popular (env : ResolverEnv) (clean normalized : String)
    (uum : Bool) (info0 : MappingInfo) (n : String) (cnt : Nat)
    (huser : getUserMapping env clean = none)
    (hpop : getMostPopularMapping env clean = some (n, cnt)) (hn : n ≠ "") :
    resolveLayers env clean normalized uum info0 = (some n, popularInfo info0 cnt) := by
  have htr : optStrTruthy (some n) = true := optStrTruthy_some hn
  unfold resolveLayers
  rw [layerUser_none env clean uum huser, layerPopular_hit env clean info0 hpop,
      layerManual_skip normalized (some n) _ htr,
      layerFuzzy_skip env clean (some n) _ htr,
      layerCanonical_skip env clean (some n) _ htr,
      layerFallback_skip clean (some n) _ htr]

/-- A truthy name but an unwritten confidence: the `None < 0.40`
comparison, a TypeError. -/
theorem finishResolution_conf_none (ex_name : String) (ex_reps : Option RepsVal)
    (rd : String) (u : String) (info : MappingInfo) (hne : u ≠ "")
    (hc : info.confidence = none) :
    finishResolution ex_name ex_reps rd (some u) info = Except.error PyErr.typeError := by
  unfold finishResolution
  simp only [Option.getD_some]
  rw [if_neg hne]
  simp only [hc]

/-- A truthy name and a confidence at or above 0.40: the 3-tuple is
returned. -/
theorem finishResolution_ok (ex_name : String) (ex_reps : Option RepsVal)
    (rd : String) (u : String) (info : MappingInfo) (c : ℚ) (hne : u ≠ "")
    (hc : info.confidence = some c) (hge : ¬ (c < 2/5)) :
    finishResolution ex_name ex_reps rd (some u) info =
      Except.ok (u, finalDescription ex_name ex_reps rd (mappingReason info),
        { info with reason := some (mappingReason info), garmin_name := some u }) := by
  unfold finishResolution
  simp only [Option.getD_some]
  rw [if_neg hne]
  simp only [hc]
  rw [if_neg hge]

/-- C7.  The user-mapping path does not return the stored name with
provenance user, confidence 1.0 and reason "chosen from your saved
preferences": it assigns only `garmin_name`, leaving
`mapping_info["confidence"]` at `None`, so the confidence check of line
377 evaluates `None < 0.40` and raises `TypeError` for every exercise
name with a (truthy) user-mapping entry.  The reason string "chosen from
your saved preferences" is dead code (nothing sets source to
"user_mapping"). -/
theorem C7_user_mapping_typeerror (env : ResolverEnv) (ex_name : String)
    (ex_reps : Option RepsVal) (ex_dist : Option ℚ) (u : String)
    (hu : getUserMapping env (cleanExerciseName (parseExerciseName ex_name).1) = some u)
    (hne : u ≠ "") :
    mapExerciseToGarmin env ex_name ex_reps ex_dist true = Except.error PyErr.typeError := by
  have hres := resolveLayers_user env (cleanExerciseName (parseExerciseName ex_name).1)
    (String.mk (lowerL (coreNormalize
      (cleanExerciseName (parseExerciseName ex_name).1)).data))
    { original_name := ex_name } u hu hne
  simp only [mapExerciseToGarmin]
  rw [hres]
  exact finishResolution_conf_none ex_name ex_reps _ u _ hne rfl

/-- Witness for C7 at the saved mapping bench -> Barbell Bench Press. -/
theorem C7_user_mapping_typeerror_witness :
    mapExerciseToGarmin envC7 "bench" none none true = Except.error PyErr.typeError :=
  C7_user_mapping_typeerror envC7 "bench" none none "Barbell Bench Press"
    (by rfl) (by decide)

/-- C8.  The popular-mapping layer: with no (truthy) user-mapping entry
and a popularity entry whose most popular name is nonempty, the resolver
returns that name with source "popular_mapping" and confidence
`min(0.95, 0.70 + 0.05 * count)`; concretely, "bench" with popularity
count 4 for "Barbell Bench Press" resolves to that name with confidence
0.90 and a reason string containing "4 users". -/
theorem C8_popular_mapping :
    (∀ (env : ResolverEnv) (ex_name : String) (ex_reps : Option RepsVal)
        (ex_dist : Option ℚ) (uum : Bool) (n : String) (cnt : Nat),
      getUserMapping env (cleanExerciseName (parseExerciseName ex_name).1) = none →
      getMostPopularMapping env (cleanExerciseName (parseExerciseName ex_name).1) =
        some (n, cnt) →
      n ≠ "" →
      ∃ desc info,
        mapExerciseToGarmin env ex_name ex_reps ex_dist uum =
          Except.ok (n, desc, info) ∧
        info.source = some "popular_mapping" ∧
        info.confidence = some (min (95/100 : ℚ) (7/10 + (cnt : ℚ) * (5/100)))) ∧
    (mapExerciseToGarmin envC8 "bench" none none true =
      Except.ok ("Barbell Bench Press",
        "lap | bench (chosen as popular choice by 4 users)",
        { original_name := "bench"
          source := some "popular_mapping"
          confidence := some (min (95/100 : ℚ) (7/10 + ((4 : Nat) : ℚ) * (5/100)))
          method := some "popular_choice_4_users"
          popularity_count := some 4
          reason := some "chosen as popular choice by 4 users"
          garmin_name := some "Barbell Bench Press" }) ∧
      min (95/100 : ℚ) (7/10 + ((4 : Nat) : ℚ) * (5/100)) = 9/10 ∧
      containsSub (String.data "4 users")
        (String.data "chosen as popular choice by 4 users") = true) := by
  constructor
  · intro env ex_name ex_reps ex_dist uum n cnt huser hpop hn
    have hge : ¬ (min (95/100 : ℚ) (7/10 + (cnt : ℚ) * (5/100)) < 2/5) := by
      have h1 : (2/5 : ℚ) ≤ 95/100 := by norm_num
      have h2 : (2/5 : ℚ) ≤ 7/10 + (cnt : ℚ) * (5/100) := by
        have hpos : (0:ℚ) ≤ (cnt : ℚ) * (5/100) := by positivity
        linarith
      exact not_lt.mpr (le_min h1 h2)
    have hres := resolveLayers_popular env
      (cleanExerciseName (parseExerciseName ex_name).1)
      (String.mk (lowerL (coreNormalize
        (cleanExerciseName (parseExerciseName ex_name).1)).data))
      uum { original_name := ex_name } n cnt huser hpop hn
    have hmap : mapExerciseToGarmin env ex_name ex_reps ex_dist uum =
        Except.ok (n,
          finalDescription ex_name ex_reps (parseExerciseName ex_name).2.1
            (mappingReason (popularInfo { original_name := ex_name } cnt)),
          { popularInfo { original_name := ex_name } cnt with
              reason := some (mappingReason (popularInfo { original_name := ex_name } cnt))
              garmin_name := some n }) := by
      simp only [mapExerciseToGarmin]
      rw [hres]
      exact finishResolution_ok ex_name ex_reps _ n _ _ hn rfl hge
    exact ⟨_, _, hmap, rfl, rfl⟩
  · have hge4 : ¬ (min (95/100 : ℚ) (7/10 + ((4 : Nat) : ℚ) * (5/100)) < 2/5) := by
      have h1 : (2/5 : ℚ) ≤ 95/100 := by norm_num
      have h2 : (2/5 : ℚ) ≤ 7/10 + ((4 : Nat) : ℚ) * (5/100) := by norm_num
      exact not_lt.mpr (le_min h1 h2)
    have hres : resolveLayers envC8 (cleanExerciseName (parseExerciseName "bench").1)
        (String.mk (lowerL (coreNormalize
          (cleanExerciseName (parseExerciseName "bench").1)).data))
        true { original_name := "bench" } =
        (some "Barbell Bench Press", popularInfo { original_name := "bench" } 4) :=
      resolveLayers_popular envC8 _ _ true { original_name := "bench" }
        "Barbell Bench Press" 4 (by rfl) (by rfl) (by decide)
    have hmap : mapExerciseToGarmin envC8 "bench" none none true =
        Except.ok ("Barbell Bench Press",
          finalDescription "bench" none (parseExerciseName "bench").2.1
            (mappingReason (popularInfo { original_name := "bench" } 4)),
          { popularInfo { original_name := "bench" } 4 with
              reason := some (mappingReason (popularInfo { original_name := "bench" } 4))
              garmin_name := some "Barbell Bench Press" }) := by
      simp only [mapExerciseToGarmin]
      rw [hres]
      exact finishResolution_ok "bench" none _ "Barbell Bench Press" _ _
        (by decide) rfl hge4
    refine ⟨?_, ?_, ?_⟩
    · rw [hmap]
      rfl
    · have hle : (7/10 + ((4 : Nat) : ℚ) * (5/100)) ≤ 95/100 := by norm_num
      rw [min_eq_right hle]
      norm_num
    · rfl

/-- Witness for the C8 general layer at the concrete popularity store
of `envC8`. -/
theorem C8_popular_mapping_witness :
    ∃ desc info,
      mapExerciseToGarmin envC8 "bench" none none true =
        Except.ok ("Barbell Bench Press", desc, info) ∧
      info.source = some "popular_mapping" ∧
      info.confidence = some (min (95/100 : ℚ) (7/10 + ((4 : Nat) : ℚ) * (5/100))) :=
  C8_popular_mapping.1 envC8 "bench" none none true "Barbell Bench Press" 4
    (by rfl) (by rfl) (by decide)

/-- A named exercise makes `validateStep` raise: either the resolver
itself raises, or the 2-name unpack of its 3-tuple does. -/
theorem validateStep_named_error (env : ResolverEnv) (acc : ValidationResult)
    (exi : ExInfo) (h : exi.name ≠ "") :
    ∃ err, validateStep env acc exi = Except.error err := by
  unfold validateStep
  rw [if_neg h]
  cases hm : mapExerciseToGarmin env exi.name exi.reps exi.distance_m true with
  | error e => exact ⟨e, rfl⟩
  | ok t => exact ⟨PyErr.valueError, rfl⟩

/-- The per-exercise fold raises as soon as one exercise is named. -/
theorem foldlM_validate_error (env : ResolverEnv) :
    ∀ (l : List ExInfo) (acc : ValidationResult),
      (∃ e ∈ l, e.name ≠ "") →
      ∃ err, l.foldlM (validateStep env) acc = Except.error err := by
  intro l
  induction l with
  | nil => intro acc h; simp at h
  | cons a rest ih =>
    intro acc h
    simp only [List.foldlM_cons]
    by_cases ha : a.name = ""
    · have hstep : validateStep env acc a = Except.ok acc := by
        unfold validateStep
        rw [if_pos ha]
      rw [hstep]
      simp only [bind, Except.bind]
      have hrest : ∃ e ∈ rest, e.name ≠ "" := by
        rcases h with ⟨e, he, hne⟩
        rcases List.mem_cons.mp he with rfl | hm
        · exact absurd ha hne
        · exact ⟨e, hm, hne⟩
      exact ih acc hrest
    · rcases validateStep_named_error env acc a ha with ⟨err, herr⟩
      rw [herr]
      exact ⟨err, by simp [bind, Except.bind]⟩

/-- C6.  The validation workflow never performs its classification: for
every Blocks workout with at least one named exercise, line 65 of
workflow.py (`garmin_name, description = map_exercise_to_garmin(...)`)
unpacks the resolver's 3-tuple into two names and raises `ValueError`
(unless the resolver itself raised first), so no
valid/needs_review/unmapped classification and no `can_proceed` flag is
ever produced. -/
theorem C6_validate_workflow_raises (env : ResolverEnv) (bj : BlocksJson)
    (h : ∃ e ∈ extractAllExercisesFromBlocks bj, e.name ≠ "") :
    ∃ err, validateWorkoutMapping env bj = Except.error err := by
  rcases foldlM_validate_error env (extractAllExercisesFromBlocks bj)
      (ValidationResult.mk (extractAllExercisesFromBlocks bj).length [] [] [] true) h with
    ⟨err, herr⟩
  refine ⟨err, ?_⟩
  simp only [validateWorkoutMapping]
  rw [herr]

/-- The C6 failing input: one block with one named exercise. -/
def bjC6 : BlocksJson :=
  { blocks := [{ exercises := [{ name := some "Push Ups" }] }] }

/-- Witness for C6 at the concrete one-exercise workout. -/
theorem C6_validate_workflow_raises_witness :
    ∃ err, validateWorkoutMapping envEmptyBase bjC6 = Except.error err :=
  C6_validate_workflow_raises envEmptyBase bjC6
    ⟨ExInfo.mk "Push Ups" "Block 1" "exercises[0]" none none none none,
     by decide, by decide⟩

end WMEC
